import Mathlib

/-!
Verification of the HTML-to-Markdown converter of sphinx-llm
(src/sphinx_llm/txt.py).

The converter `MarkdownGenerator._html_to_markdown` is an ordered pipeline of
Python `re.sub` rewrites followed by `html.unescape` and `str.strip`.  Every
regular expression it uses is built from three constructs only: literal text,
a single character class (`[Â¶]`), and a starred character class
(`[^>]*`, `[^"]*`, `.*?` under DOTALL, `\s*`), so the embedding implements a
backtracking matcher for exactly those constructs with Python's priority
order (greedy stars try longest first, lazy stars shortest first, first full
match wins), plus `re.sub`'s leftmost non-overlapping scan.

The batch entry point `MarkdownGenerator.generate_markdown_files` is embedded
as a pure function from the build outcome, the builder kind and the list of
discovered HTML files (each with its read result and a write-success flag) to
the list of (path, content) pairs written.
-/

namespace SphinxLlm

/-- Characters treated as whitespace by Python: the set matched by the regex
class `\s` on `str` patterns and stripped by `str.strip()` (ASCII whitespace
plus the Unicode whitespace code points recognised by CPython). -/
def pyWs (c : Char) : Bool :=
  c = ' ' || c = '\t' || c = '\n' || c = '\r' || c = '\x0b' || c = '\x0c' ||
  c = '\x1c' || c = '\x1d' || c = '\x1e' || c = '\x1f' || c = '\u0085' ||
  c = '\u00a0' || c = '\u1680' || (0x2000 ≤ c.toNat && c.toNat ≤ 0x200a) ||
  c = '\u2028' || c = '\u2029' || c = '\u202f' || c = '\u205f' || c = '\u3000'

/-- One item of a regular-expression pattern, restricted to the constructs
appearing in `_html_to_markdown`: a literal, a single character class, and a
starred character class.  `star cls greedy capture`. -/
inductive RItem where
  | lit : List Char → RItem
  | one : (Char → Bool) → RItem
  | star : (Char → Bool) → Bool → Bool → RItem

/-- Match a literal at the start of the input, returning the remainder. -/
def matchLit : List Char → List Char → Option (List Char)
  | [], cs => some cs
  | _ :: _, [] => none
  | a :: l, c :: cs => if a = c then matchLit l cs else none

/-- All ways a starred character class can split the input into a consumed
prefix (whose characters all satisfy the class) and a remainder, in
ascending order of consumed length. -/
def starAlts (cls : Char → Bool) : List Char → List (List Char × List Char)
  | [] => [([], [])]
  | c :: cs =>
    ([], c :: cs) ::
      (if cls c then (starAlts cls cs).map (fun uv => (c :: uv.1, uv.2)) else [])

/-- First defined element of a list of options. -/
def firstSome : List (Option α) → Option α
  | [] => none
  | o :: rest =>
    match o with
    | some r => some r
    | none => firstSome rest

/-- Backtracking matcher for a pattern at the start of the input, following
Python `re` semantics: alternatives are tried in priority order (longest
consumption first for a greedy star, shortest first for a lazy star) and the
first complete match wins.  Returns the input remaining after the match and
the captured groups in order. -/
def matchSeq : List RItem → List Char → Option (List Char × List (List Char))
  | [], cs => some (cs, [])
  | RItem.lit l :: rest, cs =>
    match matchLit l cs with
    | some cs2 => matchSeq rest cs2
    | none => none
  | RItem.one cls :: rest, cs =>
    match cs with
    | c :: cs2 => if cls c then matchSeq rest cs2 else none
    | [] => none
  | RItem.star cls greedy cap :: rest, cs =>
    let alts := starAlts cls cs
    let ordered := if greedy then alts.reverse else alts
    firstSome (ordered.map (fun uv =>
      (matchSeq rest uv.2).map (fun rc => (rc.1, if cap then uv.1 :: rc.2 else rc.2))))

/-- One pass of Python `re.sub`: scan left to right, replace each leftmost
non-overlapping match, continue after it.  The fuel argument bounds the
number of scanning steps; `reSub` supplies enough.  The length guard on the
matched remainder is unreachable for the patterns in this file (they all
consume at least one character) and only keeps the recursion obviously
fuel-bounded. -/
def reSubGo (p : List RItem) (tmpl : List (List Char) → List Char) :
    Nat → List Char → List Char
  | 0, _ => []
  | _ + 1, [] => []
  | fuel + 1, c :: cs =>
    match matchSeq p (c :: cs) with
    | some (rem, caps) =>
      if rem.length < cs.length + 1 then tmpl caps ++ reSubGo p tmpl fuel rem
      else c :: reSubGo p tmpl fuel cs
    | none => c :: reSubGo p tmpl fuel cs

/-- Python `re.sub` of a pattern over an input, with a replacement built from
the captured groups. -/
def reSub (p : List RItem) (tmpl : List (List Char) → List Char)
    (cs : List Char) : List Char :=
  reSubGo p tmpl (cs.length + 1) cs

/-- Python `str.strip()`: remove leading and trailing whitespace. -/
def pyStrip (cs : List Char) : List Char :=
  ((cs.dropWhile pyWs).reverse.dropWhile pyWs).reverse

/-- Fragment of the HTML5 named-character-reference table consulted by
Python `html.unescape`, restricted to the entries exercised by the inputs in
this development; names not listed behave as unknown references. -/
def html5Table : List (List Char × List Char) :=
  [("amp;".data, "&".data), ("amp".data, "&".data),
   ("lt;".data, "<".data), ("lt".data, "<".data),
   ("gt;".data, ">".data), ("gt".data, ">".data),
   ("quot;".data, "\"".data), ("quot".data, "\"".data),
   ("apos;".data, "\x27".data),
   ("nbsp;".data, " ".data), ("nbsp".data, " ".data),
   ("para;".data, "¶".data), ("para".data, "¶".data),
   ("sect;".data, "§".data), ("sect".data, "§".data),
   ("copy;".data, "©".data), ("copy".data, "©".data),
   ("hellip;".data, "…".data),
   ("mdash;".data, "—".data), ("ndash;".data, "–".data)]

/-- Character class of an HTML entity name in Python's charref regex:
everything except tab, newline, form feed, space, and the four
delimiters. -/
def charrefNameChar (c : Char) : Bool :=
  !(c = '\t' || c = '\n' || c = '\x0c' || c = ' ' || c = '<' || c = '&' ||
    c = '#' || c = ';')

/-- Windows-1252 reinterpretation table for numeric character references in
the range 0x00..0x9f, as in Python's html._invalid_charrefs. -/
def invalidCharrefs : List (Nat × List Char) :=
  [(0x00, ['�']), (0x0d, ['\r']), (0x80, ['€']), (0x81, ['\x81']),
   (0x82, ['‚']), (0x83, ['ƒ']), (0x84, ['„']), (0x85, ['…']),
   (0x86, ['†']), (0x87, ['‡']), (0x88, ['ˆ']), (0x89, ['‰']),
   (0x8a, ['Š']), (0x8b, ['‹']), (0x8c, ['Œ']), (0x8d, ['\x8d']),
   (0x8e, ['Ž']), (0x8f, ['\x8f']), (0x90, ['\x90']), (0x91, ['‘']),
   (0x92, ['’']), (0x93, ['“']), (0x94, ['”']), (0x95, ['•']),
   (0x96, ['–']), (0x97, ['—']), (0x98, ['˜']), (0x99, ['™']),
   (0x9a, ['š']), (0x9b, ['›']), (0x9c, ['œ']), (0x9d, ['\x9d']),
   (0x9e, ['ž']), (0x9f, ['Ÿ'])]

/-- Code points dropped by numeric character-reference decoding, as in
Python's html._invalid_codepoints. -/
def invalidCodepoint (n : Nat) : Bool :=
  (0x1 ≤ n && n ≤ 0x8) || n = 0xb || (0xe ≤ n && n ≤ 0x1f) ||
  (0x7f ≤ n && n ≤ 0x9f) || (0xfdd0 ≤ n && n ≤ 0xfdef) ||
  (n ≤ 0x10ffff && (n % 0x10000 = 0xfffe || n % 0x10000 = 0xffff))

def isDigitB (c : Char) : Bool := '0' ≤ c && c ≤ '9'

def isHexB (c : Char) : Bool :=
  isDigitB c || ('a' ≤ c && c ≤ 'f') || ('A' ≤ c && c ≤ 'F')

def hexVal (c : Char) : Nat :=
  if isDigitB c then c.toNat - '0'.toNat
  else if 'a' ≤ c && c ≤ 'f' then c.toNat - 'a'.toNat + 10
  else if 'A' ≤ c && c ≤ 'F' then c.toNat - 'A'.toNat + 10
  else 0

def natOfDigits (base : Nat) (ds : List Char) : Nat :=
  ds.foldl (fun a c => a * base + hexVal c) 0

/-- Decode a numeric character reference, following the replacement logic of
Python html.unescape. -/
def decodeCharrefNum (n : Nat) : List Char :=
  match invalidCharrefs.find? (fun p => p.1 = n) with
  | some p => p.2
  | none =>
    if (0xd800 ≤ n && n ≤ 0xdfff) || n > 0x10ffff then ['�']
    else if invalidCodepoint n then []
    else [Char.ofNat n]

/-- Look up a full entity group in the restricted HTML5 table. -/
def lookupName (grp : List Char) : Option (List Char) :=
  (html5Table.find? (fun p => p.1 = grp)).map (fun p => p.2)

/-- Longest-prefix fallback of Python html._replace_charref: try prefixes of
the group from length x down to 2; on a hit the unmatched tail is kept as
literal text. -/
def charrefPrefixLookup (grp : List Char) : Nat → Option (List Char)
  | 0 => none
  | 1 => none
  | x + 2 =>
    match lookupName (grp.take (x + 2)) with
    | some val => some (val ++ grp.drop (x + 2))
    | none => charrefPrefixLookup grp (x + 1)

/-- Parse one character reference immediately after an ampersand, following
the charref regex and replacement logic of Python html.unescape (with the
named table restricted to html5Table).  Returns the replacement text and the
remaining input, or none when the regex does not match and the ampersand
stands as literal text. -/
def parseCharref : List Char → Option (List Char × List Char)
  | '#' :: cs =>
    let ds := cs.takeWhile isDigitB
    if ds.isEmpty then
      match cs with
      | x :: cs2 =>
        if x = 'x' || x = 'X' then
          let hs := cs2.takeWhile isHexB
          if hs.isEmpty then none
          else
            let rest0 := cs2.drop hs.length
            let rest := if rest0.head? = some ';' then rest0.tail else rest0
            some (decodeCharrefNum (natOfDigits 16 hs), rest)
        else none
      | [] => none
    else
      let rest0 := cs.drop ds.length
      let rest := if rest0.head? = some ';' then rest0.tail else rest0
      some (decodeCharrefNum (natOfDigits 10 ds), rest)
  | cs =>
    let nm := (cs.takeWhile charrefNameChar).take 32
    if nm.isEmpty then none
    else
      let rest0 := cs.drop nm.length
      let semi := rest0.head? = some ';'
      let grp := if semi then nm ++ [';'] else nm
      let rest := if semi then rest0.tail else rest0
      match lookupName grp with
      | some val => some (val, rest)
      | none =>
        match charrefPrefixLookup grp (grp.length - 1) with
        | some val => some (val, rest)
        | none => some ('&' :: grp, rest)

/-- Scanner of Python html.unescape: copy characters, expanding character
references found after each ampersand.  Fuel-bounded like reSubGo; the
length guard is always true since a reference consumes at least one
character after the ampersand. -/
def unescapeGo : Nat → List Char → List Char
  | 0, _ => []
  | _ + 1, [] => []
  | fuel + 1, c :: cs =>
    if c = '&' then
      match parseCharref cs with
      | some (repl, rest) =>
        if rest.length < cs.length + 1 then repl ++ unescapeGo fuel rest
        else c :: unescapeGo fuel cs
      | none => c :: unescapeGo fuel cs
    else c :: unescapeGo fuel cs

/-- Python html.unescape (restricted named table, see html5Table). -/
def pyUnescape (cs : List Char) : List Char :=
  unescapeGo (cs.length + 1) cs

/-- Negated single-character class, as in `[^>]` and `[^"]`. -/
def neC (a : Char) : Char → Bool := fun c => !(c = a)

/-- The class of `.` under DOTALL: any character. -/
def anyC : Char → Bool := fun _ => true

def dropTmpl : List (List Char) → List Char := fun _ => []

def cap1 (caps : List (List Char)) : List Char := caps.headD []

def cap2 (caps : List (List Char)) : List Char := (caps.drop 1).headD []

/-- Pattern of re.sub(r'<script[^>]*>.*?</script>', DOTALL). -/
def scriptPat : List RItem :=
  [.lit "<script".data, .star (neC '>') true false, .lit ">".data,
   .star anyC false false, .lit "</script>".data]

/-- Pattern of re.sub(r'<style[^>]*>.*?</style>', DOTALL). -/
def stylePat : List RItem :=
  [.lit "<style".data, .star (neC '>') true false, .lit ">".data,
   .star anyC false false, .lit "</style>".data]

/-- Pattern of re.sub(r'<nav[^>]*>.*?</nav>', DOTALL). -/
def navPat : List RItem :=
  [.lit "<nav".data, .star (neC '>') true false, .lit ">".data,
   .star anyC false false, .lit "</nav>".data]

/-- Pattern of re.sub(r'<footer[^>]*>.*?</footer>', DOTALL). -/
def footerPat : List RItem :=
  [.lit "<footer".data, .star (neC '>') true false, .lit ">".data,
   .star anyC false false, .lit "</footer>".data]

/-- Pattern of re.sub(r'<div[^>]*class="[^"]*related[^"]*"[^>]*>.*?</div>',
DOTALL). -/
def divRelatedPat : List RItem :=
  [.lit "<div".data, .star (neC '>') true false, .lit "class=\"".data,
   .star (neC '"') true false, .lit "related".data, .star (neC '"') true false,
   .lit "\"".data, .star (neC '>') true false, .lit ">".data,
   .star anyC false false, .lit "</div>".data]

/-- Pattern of re.sub(r'<div[^>]*class="[^"]*sphinxsidebar[^"]*"[^>]*>.*?</div>',
DOTALL). -/
def divSidebarPat : List RItem :=
  [.lit "<div".data, .star (neC '>') true false, .lit "class=\"".data,
   .star (neC '"') true false, .lit "sphinxsidebar".data,
   .star (neC '"') true false, .lit "\"".data, .star (neC '>') true false,
   .lit ">".data, .star anyC false false, .lit "</div>".data]

/-- Pattern of re.sub(r'<hN[^>]*>(.*?)</hN>', DOTALL), N given by its digit. -/
def hPat (d : Char) : List RItem :=
  [.lit ['<', 'h', d], .star (neC '>') true false, .lit ['>'],
   .star anyC false true, .lit ['<', '/', 'h', d, '>']]

/-- Replacement r'#...# \1' of the heading rules. -/
def hdrTmpl (n : Nat) : List (List Char) → List Char :=
  fun caps => List.replicate n '#' ++ ' ' :: cap1 caps

/-- Pattern of re.sub(r'<p[^>]*>(.*?)</p>', DOTALL). -/
def pPat : List RItem :=
  [.lit "<p".data, .star (neC '>') true false, .lit ">".data,
   .star anyC false true, .lit "</p>".data]

/-- Replacement r'\1\n\n' of the paragraph rule. -/
def pTmpl : List (List Char) → List Char :=
  fun caps => cap1 caps ++ ['\n', '\n']

/-- Pattern of re.sub(r'<a[^>]*href="([^"]*)"[^>]*>(.*?)</a>', DOTALL). -/
def aPat : List RItem :=
  [.lit "<a".data, .star (neC '>') true false, .lit "href=\"".data,
   .star (neC '"') true true, .lit "\"".data, .star (neC '>') true false,
   .lit ">".data, .star anyC false true, .lit "</a>".data]

/-- Replacement r'[\2](\1)' of the link rule. -/
def aTmpl : List (List Char) → List Char :=
  fun caps => '[' :: cap2 caps ++ ']' :: '(' :: cap1 caps ++ [')']

/-- Pattern of re.sub(r'<strong[^>]*>(.*?)</strong>', DOTALL). -/
def strongPat : List RItem :=
  [.lit "<strong".data, .star (neC '>') true false, .lit ">".data,
   .star anyC false true, .lit "</strong>".data]

/-- Pattern of re.sub(r'<b[^>]*>(.*?)</b>', DOTALL). -/
def bPat : List RItem :=
  [.lit "<b".data, .star (neC '>') true false, .lit ">".data,
   .star anyC false true, .lit "</b>".data]

/-- Replacement r'**\1**' of the bold rules. -/
def strongTmpl : List (List Char) → List Char :=
  fun caps => '*' :: '*' :: cap1 caps ++ ['*', '*']

/-- Pattern of re.sub(r'<em[^>]*>(.*?)</em>', DOTALL). -/
def emPat : List RItem :=
  [.lit "<em".data, .star (neC '>') true false, .lit ">".data,
   .star anyC false true, .lit "</em>".data]

/-- Pattern of re.sub(r'<i[^>]*>(.*?)</i>', DOTALL). -/
def iPat : List RItem :=
  [.lit "<i".data, .star (neC '>') true false, .lit ">".data,
   .star anyC false true, .lit "</i>".data]

/-- Replacement r'*\1*' of the italic rules. -/
def emTmpl : List (List Char) → List Char :=
  fun caps => '*' :: cap1 caps ++ ['*']

/-- Pattern of re.sub(r'<li[^>]*>(.*?)</li>', DOTALL). -/
def liPat : List RItem :=
  [.lit "<li".data, .star (neC '>') true false, .lit ">".data,
   .star anyC false true, .lit "</li>".data]

/-- Replacement r'- \1' of the list-item rule. -/
def liTmpl : List (List Char) → List Char :=
  fun caps => '-' :: ' ' :: cap1 caps

/-- Pattern of re.sub(r'<pre[^>]*><code[^>]*>(.*?)</code></pre>', DOTALL). -/
def preCodePat : List RItem :=
  [.lit "<pre".data, .star (neC '>') true false, .lit "><code".data,
   .star (neC '>') true false, .lit ">".data, .star anyC false true,
   .lit "</code></pre>".data]

/-- Replacement of the fenced code-block rule (triple backtick fences). -/
def preCodeTmpl : List (List Char) → List Char :=
  fun caps => "\x60\x60\x60\n".data ++ cap1 caps ++ "\n\x60\x60\x60".data

/-- Pattern of re.sub(r'<code[^>]*>(.*?)</code>', DOTALL). -/
def codePat : List RItem :=
  [.lit "<code".data, .star (neC '>') true false, .lit ">".data,
   .star anyC false true, .lit "</code>".data]

/-- Replacement of the inline-code rule (single backticks). -/
def codeTmpl : List (List Char) → List Char :=
  fun caps => '\x60' :: cap1 caps ++ ['\x60']

/-- Pattern of re.sub(r'<[^>]*>', ''): strip any remaining tag. -/
def tagPat : List RItem :=
  [.lit "<".data, .star (neC '>') true false, .lit ">".data]

/-- Pattern of re.sub(r'\n\s*\n\s*\n', '\n\n'). -/
def collapsePat : List RItem :=
  [.lit ['\n'], .star pyWs true false, .lit ['\n'], .star pyWs true false,
   .lit ['\n']]

/-- Replacement '\n\n' of the newline-collapsing rule. -/
def collapseTmpl : List (List Char) → List Char := fun _ => ['\n', '\n']

/-- Character class of re.sub(r'[Â¶]', ''). -/
def pilcrowCls (c : Char) : Bool := c = 'Â' || c = '¶'

/-- Pattern of re.sub(r'[Â¶]', ''). -/
def pilcrowPat : List RItem := [.one pilcrowCls]

/-- The conversion pipeline of `_html_to_markdown` up to and including tag
stripping (lines 100-137 of txt.py). -/
def stripMarkup (cs : List Char) : List Char :=
  reSub tagPat dropTmpl
    (reSub codePat codeTmpl
      (reSub preCodePat preCodeTmpl
        (reSub liPat liTmpl
          (reSub iPat emTmpl
            (reSub emPat emTmpl
              (reSub bPat strongTmpl
                (reSub strongPat strongTmpl
                  (reSub aPat aTmpl
                    (reSub pPat pTmpl
                      (reSub (hPat '6') (hdrTmpl 6)
                        (reSub (hPat '5') (hdrTmpl 5)
                          (reSub (hPat '4') (hdrTmpl 4)
                            (reSub (hPat '3') (hdrTmpl 3)
                              (reSub (hPat '2') (hdrTmpl 2)
                                (reSub (hPat '1') (hdrTmpl 1)
                                  (reSub divSidebarPat dropTmpl
                                    (reSub divRelatedPat dropTmpl
                                      (reSub footerPat dropTmpl
                                        (reSub navPat dropTmpl
                                          (reSub stylePat dropTmpl
                                            (reSub scriptPat dropTmpl cs)))))))))))))))))))))

/-- The pipeline through entity decoding (lines 100-141 of txt.py): the text
on which whitespace collapsing and artifact removal then run. -/
def preWhitespace (cs : List Char) : List Char :=
  pyUnescape (stripMarkup cs)

/-- `MarkdownGenerator._html_to_markdown` on character lists: the full
rewrite pipeline of lines 100-148 of txt.py. -/
def html_to_markdown_chars (cs : List Char) : List Char :=
  pyStrip (reSub pilcrowPat dropTmpl (reSub collapsePat collapseTmpl (preWhitespace cs)))

/-- `MarkdownGenerator._html_to_markdown`. -/
def html_to_markdown (s : String) : String :=
  String.mk (html_to_markdown_chars s.data)

/-- The Converter of the specification: `convert(html) -> markdown`. -/
def convert (s : String) : String := html_to_markdown s

/-- Does the text contain a run of three or more newlines separated only by
whitespace (an occurrence of the collapse pattern at any position)?  This is
a decidable rendering of the whitespace property of the specification. -/
def hasTripleRun : List Char → Bool
  | [] => false
  | c :: cs => (matchSeq collapsePat (c :: cs)).isSome || hasTripleRun cs

/-- A discovered HTML file, as the batch entry point sees it: its name, the
result of reading it (a read may raise), and whether writing its markdown
sibling succeeds. -/
structure HtmlFile where
  name : String
  readResult : Except String String
  writeOk : Bool

/-- `MarkdownGenerator._convert_html_to_markdown` (lines 72-89 of txt.py):
read, convert, write; on any failure the file is skipped (returns none),
otherwise the written (path, content) pair is returned. -/
def convert_html_to_markdown (f : HtmlFile) : Option (String × String) :=
  match f.readResult with
  | Except.error _ => none
  | Except.ok html =>
    if f.writeOk then some (f.name ++ ".md", html_to_markdown html) else none

/-- One section of llms.txt as written by the concatenation loop (lines
64-69 of txt.py): heading line, blank line, file content, blank line. -/
def sectionOf (p : String × String) : String :=
  "# " ++ p.1 ++ "\n\n" ++ p.2 ++ "\n\n"

/-- Content of llms.txt: the sections of the generated files written in
order by the concatenation loop. -/
def llmsContent (gen : List (String × String)) : String :=
  gen.foldl (fun acc p => acc ++ sectionOf p) ""

/-- `MarkdownGenerator.generate_markdown_files` (lines 38-70 of txt.py) as a
pure function returning the list of (path, content) pairs written, in write
order: nothing when the build reported an exception or the builder is not
the HTML builder; otherwise one markdown file per successfully converted
document followed by llms.txt. -/
def generate_markdown_files (exception : Option String) (isHtmlBuilder : Bool)
    (files : List HtmlFile) : List (String × String) :=
  if exception.isSome then []
  else if !isHtmlBuilder then []
  else
    let gen := files.filterMap convert_html_to_markdown
    gen ++ [("llms.txt", llmsContent gen)]

/-- Left-biased choice on options (the backbone of alternation). -/
def oor : Option α → Option α → Option α
  | some r, _ => some r
  | none, b => b

/-- Does the literal l occur (as a contiguous sublist) anywhere in the
input? -/
def occursB (l : List Char) : List Char → Bool
  | [] => (matchLit l []).isSome
  | c :: cs => (matchLit l (c :: cs)).isSome || occursB l cs

/-- The input cannot extend a run of the class: it is empty or starts with a
character outside the class. -/
def headStop (cls : Char → Bool) : List Char → Prop
  | [] => True
  | c :: _ => cls c = false

/-- Characters that none of the conversion rules can react to: not a tag
opener, not an ampersand, not one of the two artifact characters, and not a
newline. -/
def plainChar (c : Char) : Bool :=
  !(c = '<' || c = '&' || c = 'Â' || c = '¶' || c = '\n')

/-- The text starts with whitespace followed by a newline (a newline is
reachable from the front through whitespace only). -/
def nlUpto (t : List Char) : Prop :=
  ∃ w r, t = w ++ '\n' :: r ∧ w.all pyWs = true

/-- The text starts with two newlines reachable through whitespace only. -/
def nl2 (t : List Char) : Prop :=
  ∃ w₁ w₂ r, t = w₁ ++ '\n' :: (w₂ ++ '\n' :: r) ∧
    w₁.all pyWs = true ∧ w₂.all pyWs = true

/-! ### Generic properties of the matcher -/

theorem oor_some (r : α) (b : Option α) : oor (some r) b = some r := rfl

theorem oor_none (b : Option α) : oor none b = b := rfl

theorem firstSome_cons_some (r : α) (l : List (Option α)) :
    firstSome (some r :: l) = some r := rfl

theorem firstSome_cons_none (l : List (Option α)) :
    firstSome (none :: l) = firstSome l := rfl

theorem firstSome_append (l₁ l₂ : List (Option α)) :
    firstSome (l₁ ++ l₂) = oor (firstSome l₁) (firstSome l₂) := by
  induction l₁ with
  | nil => simp [firstSome, oor]
  | cons o rest ih =>
    cases o with
    | some r => simp [firstSome_cons_some, oor]
    | none => simpa [firstSome_cons_none, oor] using ih

theorem firstSome_eq_none (l : List (Option α)) (h : ∀ o ∈ l, o = none) :
    firstSome l = none := by
  induction l with
  | nil => rfl
  | cons o rest ih =>
    have ho := h o (by simp)
    subst ho
    rw [firstSome_cons_none]
    exact ih fun o2 ho2 => h o2 (by simp [ho2])

theorem firstSome_mem (l : List (Option α)) (r : α) (h : firstSome l = some r) :
    some r ∈ l := by
  induction l with
  | nil => simp [firstSome] at h
  | cons o rest ih =>
    cases o with
    | some x =>
      rw [firstSome_cons_some] at h
      rw [h]
      exact List.mem_cons_self _ _
    | none =>
      rw [firstSome_cons_none] at h
      exact List.mem_cons_of_mem _ (ih h)

theorem firstSome_desc (f : Nat → Option α) (n j : Nat) (r : α) (hj : j ≤ n)
    (hhit : f j = some r) (hfail : ∀ k, j < k → k ≤ n → f k = none) :
    firstSome (((List.range (n + 1)).reverse).map f) = some r := by
  induction n with
  | zero =>
    have hj0 : j = 0 := by omega
    subst hj0
    simp [List.range_succ, firstSome_cons_some, hhit]
  | succ n ih =>
    rw [List.range_succ, List.reverse_append, List.reverse_singleton]
    by_cases hj2 : j = n + 1
    · subst hj2
      simp [firstSome_cons_some, hhit]
    · have hfn : f (n + 1) = none := hfail _ (by omega) (by omega)
      simp only [List.singleton_append, List.map_cons, hfn, firstSome_cons_none]
      exact ih (by omega) (fun k hk1 hk2 => hfail k hk1 (by omega))

theorem firstSome_desc_max (f : Nat → Option α) (n : Nat) (r : α)
    (h : firstSome (((List.range (n + 1)).reverse).map f) = some r) :
    ∃ j, j ≤ n ∧ f j = some r ∧ ∀ k, j < k → k ≤ n → f k = none := by
  induction n with
  | zero =>
    simp only [List.range_succ, List.range_zero, List.nil_append,
      List.reverse_singleton, List.map_cons, List.map_nil] at h
    cases hf : f 0 with
    | none => rw [hf, firstSome_cons_none] at h; simp [firstSome] at h
    | some x =>
      rw [hf, firstSome_cons_some] at h
      exact ⟨0, le_refl 0, by rw [hf, h], fun k hk1 hk2 => by omega⟩
  | succ n ih =>
    rw [List.range_succ, List.reverse_append, List.reverse_singleton,
      List.singleton_append, List.map_cons] at h
    cases hf : f (n + 1) with
    | some x =>
      rw [hf, firstSome_cons_some] at h
      exact ⟨n + 1, le_refl _, by rw [hf, h], fun k hk1 hk2 => by omega⟩
    | none =>
      rw [hf, firstSome_cons_none] at h
      obtain ⟨j, hj, hhit, hfail⟩ := ih h
      refine ⟨j, by omega, hhit, fun k hk1 hk2 => ?_⟩
      rcases Nat.lt_or_ge k (n + 1) with hk | hk
      · exact hfail k hk1 (by omega)
      · have : k = n + 1 := by omega
        rw [this, hf]

theorem firstSome_asc (f : Nat → Option α) (n j : Nat) (r : α) (hj : j ≤ n)
    (hhit : f j = some r) (hfail : ∀ k, k < j → f k = none) :
    firstSome ((List.range (n + 1)).map f) = some r := by
  induction j generalizing f n with
  | zero =>
    rw [List.range_succ_eq_map, List.map_cons]
    simp [hhit, firstSome_cons_some]
  | succ j ih =>
    obtain ⟨n', rfl⟩ : ∃ n', n = n' + 1 := ⟨n - 1, by omega⟩
    rw [List.range_succ_eq_map, List.map_cons, hfail 0 (by omega),
      firstSome_cons_none, List.map_map]
    exact ih (f ∘ Nat.succ) n' (by omega) hhit (fun k hk => hfail (k + 1) (by omega))

/-! ### Properties of starAlts -/

theorem starAlts_sound (cls : Char → Bool) (cs : List Char) :
    ∀ uv ∈ starAlts cls cs, cs = uv.1 ++ uv.2 ∧ uv.1.all cls = true := by
  induction cs with
  | nil =>
    intro uv h
    simp only [starAlts, List.mem_singleton] at h
    subst h
    simp
  | cons c cs ih =>
    intro uv h
    simp only [starAlts, List.mem_cons] at h
    rcases h with h | h
    · subst h; simp
    · by_cases hc : cls c
      · rw [if_pos hc, List.mem_map] at h
        obtain ⟨w, hw, he⟩ := h
        obtain ⟨h1, h2⟩ := ih w hw
        subst he
        constructor
        · simp [h1]
        · simp [hc, h2]
      · rw [if_neg hc] at h
        simp at h

theorem starAlts_append (cls : Char → Bool) (u v : List Char)
    (hu : u.all cls = true) (hv : headStop cls v) :
    starAlts cls (u ++ v) =
      (List.range (u.length + 1)).map (fun k => (u.take k, u.drop k ++ v)) := by
  induction u with
  | nil =>
    cases v with
    | nil => simp [starAlts]
    | cons c v' =>
      have hc : cls c = false := hv
      simp [starAlts, hc]
  | cons a u' ih =>
    have ha : cls a = true := by
      rw [List.all_cons, Bool.and_eq_true] at hu; exact hu.1
    have hu' : u'.all cls = true := by
      rw [List.all_cons, Bool.and_eq_true] at hu; exact hu.2
    rw [List.cons_append]
    show ([], a :: (u' ++ v)) ::
        (if cls a then (starAlts cls (u' ++ v)).map (fun uv => (a :: uv.1, uv.2)) else []) = _
    rw [if_pos ha, ih hu', List.length_cons,
      List.range_succ_eq_map (u'.length + 1), List.map_cons, List.map_map, List.map_map]
    congr 1

/-! ### Unfolding and soundness of matchSeq -/

theorem matchSeq_nil_pat (cs : List Char) : matchSeq [] cs = some (cs, []) := rfl

theorem matchSeq_lit_of_matchLit (l : List Char) (rest : List RItem)
    (cs cs2 : List Char) (h : matchLit l cs = some cs2) :
    matchSeq (RItem.lit l :: rest) cs = matchSeq rest cs2 := by
  simp [matchSeq, h]

theorem matchSeq_lit_of_none (l : List Char) (rest : List RItem) (cs : List Char)
    (h : matchLit l cs = none) : matchSeq (RItem.lit l :: rest) cs = none := by
  simp [matchSeq, h]

theorem matchSeq_one_pos (cls : Char → Bool) (rest : List RItem) (c : Char)
    (cs : List Char) (h : cls c = true) :
    matchSeq (RItem.one cls :: rest) (c :: cs) = matchSeq rest cs := by
  simp [matchSeq, h]

theorem matchSeq_one_neg (cls : Char → Bool) (rest : List RItem) (c : Char)
    (cs : List Char) (h : cls c = false) :
    matchSeq (RItem.one cls :: rest) (c :: cs) = none := by
  simp [matchSeq, h]

theorem matchSeq_star_eq (cls : Char → Bool) (greedy cap : Bool)
    (rest : List RItem) (cs : List Char) :
    matchSeq (RItem.star cls greedy cap :: rest) cs =
      firstSome ((if greedy then (starAlts cls cs).reverse else starAlts cls cs).map
        (fun uv => (matchSeq rest uv.2).map
          (fun rc => (rc.1, if cap then uv.1 :: rc.2 else rc.2)))) := by
  simp [matchSeq]

theorem matchLit_eq_some (l cs cs2 : List Char) :
    matchLit l cs = some cs2 ↔ cs = l ++ cs2 := by
  induction l generalizing cs with
  | nil => simp [matchLit]
  | cons a l ih =>
    cases cs with
    | nil => simp [matchLit]
    | cons c cs' =>
      by_cases hac : a = c
      · subst hac; simp [matchLit, ih]
      · have h1 : matchLit (a :: l) (c :: cs') = none := by simp [matchLit, hac]
        rw [h1]
        simp only [List.cons_append, List.cons_eq_cons]
        exact iff_of_false (by simp) (fun h => hac h.1.symm)

theorem matchLit_self (l rest : List Char) : matchLit l (l ++ rest) = some rest :=
  (matchLit_eq_some l (l ++ rest) rest).2 rfl

theorem matchSeq_suffix (p : List RItem) :
    ∀ (cs rem : List Char) (caps : List (List Char)),
      matchSeq p cs = some (rem, caps) → rem.IsSuffix cs := by
  induction p with
  | nil =>
    intro cs rem caps h
    rw [matchSeq_nil_pat] at h
    simp only [Option.some.injEq, Prod.mk.injEq] at h
    obtain ⟨h1, -⟩ := h
    subst h1
    exact List.suffix_refl _
  | cons it rest ih =>
    intro cs rem caps h
    cases it with
    | lit l =>
      cases hm : matchLit l cs with
      | none => rw [matchSeq_lit_of_none _ _ _ hm] at h; exact absurd h (by simp)
      | some cs2 =>
        rw [matchSeq_lit_of_matchLit _ _ _ _ hm] at h
        have h2 := ih cs2 rem caps h
        have h3 : cs2.IsSuffix cs := by
          rw [(matchLit_eq_some l cs cs2).1 hm]
          exact List.suffix_append l cs2
        exact h2.trans h3
    | one cls =>
      cases cs with
      | nil => simp [matchSeq] at h
      | cons c cs2 =>
        by_cases hc : cls c
        · rw [matchSeq_one_pos _ _ _ _ hc] at h
          exact (ih cs2 rem caps h).trans (List.suffix_cons c cs2)
        · rw [matchSeq_one_neg _ _ _ _ (by simpa using hc)] at h
          exact absurd h (by simp)
    | star cls greedy cap =>
      rw [matchSeq_star_eq] at h
      have hmem := firstSome_mem _ _ h
      rw [List.mem_map] at hmem
      obtain ⟨uv, huv, heq⟩ := hmem
      obtain ⟨rc, hm, hrc⟩ := Option.map_eq_some'.1 heq
      have hrem : rc.1 = rem := by simpa using congrArg Prod.fst hrc
      have huv2 : uv ∈ starAlts cls cs := by
        by_cases hg : greedy
        · rw [if_pos hg, List.mem_reverse] at huv; exact huv
        · rw [if_neg hg] at huv; exact huv
      obtain ⟨hsplit, -⟩ := starAlts_sound cls cs uv huv2
      have h2 := ih uv.2 rc.1 rc.2 (by rw [hm])
      rw [hrem] at h2
      refine h2.trans ?_
      rw [hsplit]
      exact List.suffix_append uv.1 uv.2

/-! ### Evaluation lemmas for stars in context -/

theorem matchSeq_gstar_eval (cls : Char → Bool) (cap : Bool) (rest : List RItem)
    (u v : List Char) (j : Nat) (rem : List Char) (caps : List (List Char))
    (hu : u.all cls = true) (hv : headStop cls v) (hj : j ≤ u.length)
    (hhit : matchSeq rest (u.drop j ++ v) = some (rem, caps))
    (hfail : ∀ k, j < k → k ≤ u.length → matchSeq rest (u.drop k ++ v) = none) :
    matchSeq (RItem.star cls true cap :: rest) (u ++ v) =
      some (rem, if cap then u.take j :: caps else caps) := by
  rw [matchSeq_star_eq, if_pos rfl, starAlts_append cls u v hu hv,
    ← List.map_reverse, List.map_map]
  exact firstSome_desc _ u.length j _ hj
    (by simp [Function.comp, hhit])
    (fun k hk1 hk2 => by simp [Function.comp, hfail k hk1 hk2])

theorem matchSeq_gstar_none (cls : Char → Bool) (cap : Bool) (rest : List RItem)
    (u v : List Char) (hu : u.all cls = true) (hv : headStop cls v)
    (hfail : ∀ k, k ≤ u.length → matchSeq rest (u.drop k ++ v) = none) :
    matchSeq (RItem.star cls true cap :: rest) (u ++ v) = none := by
  rw [matchSeq_star_eq, if_pos rfl, starAlts_append cls u v hu hv,
    ← List.map_reverse, List.map_map]
  apply firstSome_eq_none
  intro o ho
  rw [List.mem_map] at ho
  obtain ⟨k, hk, rfl⟩ := ho
  rw [List.mem_reverse, List.mem_range] at hk
  simp [Function.comp, hfail k (by omega)]

theorem matchSeq_lstar_eval (cls : Char → Bool) (cap : Bool) (rest : List RItem)
    (cs : List Char) (j : Nat) (rem : List Char) (caps : List (List Char))
    (hall : cs.all cls = true) (hj : j ≤ cs.length)
    (hhit : matchSeq rest (cs.drop j) = some (rem, caps))
    (hfail : ∀ k, k < j → matchSeq rest (cs.drop k) = none) :
    matchSeq (RItem.star cls false cap :: rest) cs =
      some (rem, if cap then cs.take j :: caps else caps) := by
  have halt : starAlts cls cs =
      (List.range (cs.length + 1)).map (fun k => (cs.take k, cs.drop k)) := by
    have := starAlts_append cls cs [] (by simpa using hall) trivial
    simpa using this
  rw [matchSeq_star_eq, if_neg (by simp), halt, List.map_map]
  exact firstSome_asc _ cs.length j _ hj
    (by simp [Function.comp, hhit])
    (fun k hk => by simp [Function.comp, hfail k hk])

/-! ### Properties of reSub -/

theorem reSubGo_fuel (p : List RItem) (tmpl : List (List Char) → List Char) :
    ∀ (f₁ f₂ : Nat) (cs : List Char), cs.length < f₁ → cs.length < f₂ →
      reSubGo p tmpl f₁ cs = reSubGo p tmpl f₂ cs := by
  intro f₁
  induction f₁ with
  | zero => intro f₂ cs h1 h2; omega
  | succ f₁ ih =>
    intro f₂ cs h1 h2
    obtain ⟨f₂', rfl⟩ : ∃ f₂', f₂ = f₂' + 1 := ⟨f₂ - 1, by omega⟩
    cases cs with
    | nil => rfl
    | cons c cs' =>
      simp only [reSubGo]
      cases hm : matchSeq p (c :: cs') with
      | none =>
        rw [ih f₂' cs' (by simp at h1; omega) (by simp at h2; omega)]
      | some rc =>
        obtain ⟨rem, caps⟩ := rc
        dsimp only
        by_cases hlen : rem.length < cs'.length + 1
        · rw [if_pos hlen, if_pos hlen,
            ih f₂' rem (by simp at h1; omega) (by simp at h2; omega)]
        · rw [if_neg hlen, if_neg hlen,
            ih f₂' cs' (by simp at h1; omega) (by simp at h2; omega)]

theorem reSub_nil (p : List RItem) (tmpl : List (List Char) → List Char) :
    reSub p tmpl [] = [] := rfl

theorem reSub_cons_match (p : List RItem) (tmpl : List (List Char) → List Char)
    (c : Char) (cs rem : List Char) (caps : List (List Char))
    (h : matchSeq p (c :: cs) = some (rem, caps)) (hlen : rem.length ≤ cs.length) :
    reSub p tmpl (c :: cs) = tmpl caps ++ reSub p tmpl rem := by
  show reSubGo p tmpl ((c :: cs).length + 1) (c :: cs) = _
  simp only [List.length_cons, reSubGo, h]
  rw [if_pos (by omega)]
  congr 1
  exact reSubGo_fuel p tmpl _ _ rem (by omega) (by omega)

theorem reSub_cons_nomatch (p : List RItem) (tmpl : List (List Char) → List Char)
    (c : Char) (cs : List Char) (h : matchSeq p (c :: cs) = none) :
    reSub p tmpl (c :: cs) = c :: reSub p tmpl cs := by
  show reSubGo p tmpl ((c :: cs).length + 1) (c :: cs) = _
  simp only [List.length_cons, reSubGo, h]
  rfl

theorem reSub_noop (p : List RItem) (tmpl : List (List Char) → List Char)
    (cs : List Char)
    (h : ∀ c cs2, (c :: cs2).IsSuffix cs → matchSeq p (c :: cs2) = none) :
    reSub p tmpl cs = cs := by
  induction cs with
  | nil => rfl
  | cons c cs' ih =>
    rw [reSub_cons_nomatch _ _ _ _ (h c cs' (List.suffix_refl _))]
    congr 1
    exact ih (fun c2 cs2 hs => h c2 cs2 (hs.trans (List.suffix_cons c cs')))

theorem matchSeq_lit_head_ne (a : Char) (l : List Char) (rest : List RItem)
    (c : Char) (cs : List Char) (h : c ≠ a) :
    matchSeq (RItem.lit (a :: l) :: rest) (c :: cs) = none := by
  apply matchSeq_lit_of_none
  have hac : ¬a = c := fun hh => h hh.symm
  simp [matchLit, hac]

theorem matchSeq_lit_nil_none (a : Char) (l : List Char) (rest : List RItem) :
    matchSeq (RItem.lit (a :: l) :: rest) [] = none := by
  apply matchSeq_lit_of_none
  rfl

theorem reSub_noop_not_mem (a : Char) (l : List Char) (rest : List RItem)
    (tmpl : List (List Char) → List Char) (cs : List Char) (h : a ∉ cs) :
    reSub (RItem.lit (a :: l) :: rest) tmpl cs = cs := by
  apply reSub_noop
  intro c cs2 hs
  refine matchSeq_lit_head_ne a l rest c cs2 (fun hc => h ?_)
  exact hc ▸ hs.subset (List.mem_cons_self c cs2)

theorem reSub_skip (a : Char) (l : List Char) (rest : List RItem)
    (tmpl : List (List Char) → List Char) (pre post : List Char) (h : a ∉ pre) :
    reSub (RItem.lit (a :: l) :: rest) tmpl (pre ++ post) =
      pre ++ reSub (RItem.lit (a :: l) :: rest) tmpl post := by
  induction pre with
  | nil => simp
  | cons c pre' ih =>
    rw [List.cons_append,
      reSub_cons_nomatch _ _ _ _
        (matchSeq_lit_head_ne a l rest c _ (fun hc => h (by rw [hc]; exact List.mem_cons_self a pre'))),
      List.cons_append]
    congr 1
    exact ih (fun hm => h (List.mem_cons_of_mem c hm))

theorem occursB_nil (l : List Char) : occursB l [] = (matchLit l []).isSome := rfl

theorem occursB_cons_eq (l : List Char) (c : Char) (cs : List Char) :
    occursB l (c :: cs) = ((matchLit l (c :: cs)).isSome || occursB l cs) := rfl

theorem occursB_false_suffix (l cs : List Char) (h : occursB l cs = false) :
    ∀ d, d.IsSuffix cs → (matchLit l d).isSome = false := by
  induction cs with
  | nil =>
    intro d hd
    rw [List.suffix_nil.1 hd]
    exact h
  | cons c cs' ih =>
    intro d hd
    rw [occursB_cons_eq, Bool.or_eq_false_iff] at h
    rcases List.suffix_cons_iff.1 hd with hd2 | hd2
    · rw [hd2]; exact h.1
    · exact ih h.2 d hd2

theorem reSub_noop_occursB (l : List Char) (rest : List RItem)
    (tmpl : List (List Char) → List Char) (cs : List Char)
    (h : occursB l cs = false) : reSub (RItem.lit l :: rest) tmpl cs = cs := by
  apply reSub_noop
  intro c cs2 hs
  apply matchSeq_lit_of_none
  have h2 := occursB_false_suffix l cs h _ hs
  cases hm : matchLit l (c :: cs2) with
  | none => rfl
  | some x => rw [hm] at h2; simp at h2

theorem occursB_append_plain (a : Char) (l pre post : List Char) (h : a ∉ pre) :
    occursB (a :: l) (pre ++ post) = occursB (a :: l) post := by
  induction pre with
  | nil => rfl
  | cons c pre' ih =>
    rw [List.cons_append, occursB_cons_eq]
    have hml : matchLit (a :: l) (c :: (pre' ++ post)) = none := by
      have hac : ¬a = c := fun hh => h (by rw [hh]; exact List.mem_cons_self c pre')
      simp [matchLit, hac]
    rw [hml]
    simp only [Option.isSome_none, Bool.false_or]
    exact ih (fun hm => h (List.mem_cons_of_mem c hm))

/-! ### Properties of pyUnescape and pyStrip -/

theorem unescapeGo_noamp (fuel : Nat) (cs : List Char) (h : '&' ∉ cs)
    (hf : cs.length < fuel) : unescapeGo fuel cs = cs := by
  induction fuel generalizing cs with
  | zero => omega
  | succ fuel ih =>
    cases cs with
    | nil => rfl
    | cons c cs' =>
      have hc : ¬(c = '&') := fun hh => h (by rw [hh]; exact List.mem_cons_self _ _)
      simp only [unescapeGo, if_neg hc]
      congr 1
      exact ih cs' (fun hm => h (List.mem_cons_of_mem c hm)) (by simp at hf; omega)

theorem pyUnescape_noamp (cs : List Char) (h : '&' ∉ cs) : pyUnescape cs = cs :=
  unescapeGo_noamp _ cs h (by omega)

theorem dropWhile_headStop (cls : Char → Bool) (l : List Char) (h : headStop cls l) :
    l.dropWhile cls = l := by
  cases l with
  | nil => rfl
  | cons c l' =>
    have hc : cls c = false := h
    rw [List.dropWhile_cons, if_neg (by simp [hc])]

theorem pyStrip_eq_self (cs : List Char) (h1 : headStop pyWs cs)
    (h2 : headStop pyWs cs.reverse) : pyStrip cs = cs := by
  unfold pyStrip
  rw [dropWhile_headStop pyWs cs h1, dropWhile_headStop pyWs cs.reverse h2,
    List.reverse_reverse]

/-! ### Soundness and completeness of single pattern items -/

theorem firstSome_singleton (o : Option α) : firstSome [o] = o := by
  cases o <;> rfl

theorem firstSome_isSome_of_mem (l : List (Option α)) (o : Option α) (ho : o ∈ l)
    (h : o.isSome = true) : (firstSome l).isSome = true := by
  induction l with
  | nil => simp at ho
  | cons o2 rest ih =>
    cases o2 with
    | some r => simp [firstSome_cons_some]
    | none =>
      rw [firstSome_cons_none]
      rcases List.mem_cons.1 ho with h2 | h2
      · rw [h2] at h; simp at h
      · exact ih h2

theorem matchSeq_lit_sound (l : List Char) (rest : List RItem) (cs rem : List Char)
    (caps : List (List Char)) (h : matchSeq (RItem.lit l :: rest) cs = some (rem, caps)) :
    ∃ cs2, cs = l ++ cs2 ∧ matchSeq rest cs2 = some (rem, caps) := by
  cases hm : matchLit l cs with
  | none => rw [matchSeq_lit_of_none _ _ _ hm] at h; exact absurd h (by simp)
  | some cs2 =>
    rw [matchSeq_lit_of_matchLit _ _ _ _ hm] at h
    exact ⟨cs2, (matchLit_eq_some _ _ _).1 hm, h⟩

theorem matchSeq_star_sound (cls : Char → Bool) (greedy cap : Bool)
    (rest : List RItem) (cs rem : List Char) (caps : List (List Char))
    (h : matchSeq (RItem.star cls greedy cap :: rest) cs = some (rem, caps)) :
    ∃ u v caps2, cs = u ++ v ∧ u.all cls = true ∧
      matchSeq rest v = some (rem, caps2) := by
  rw [matchSeq_star_eq] at h
  have hmem := firstSome_mem _ _ h
  rw [List.mem_map] at hmem
  obtain ⟨uv, huv, heq⟩ := hmem
  obtain ⟨rc, hm, hrc⟩ := Option.map_eq_some'.1 heq
  have huv2 : uv ∈ starAlts cls cs := by
    by_cases hg : greedy
    · rw [if_pos hg, List.mem_reverse] at huv; exact huv
    · rw [if_neg hg] at huv; exact huv
  obtain ⟨hsplit, hall⟩ := starAlts_sound cls cs uv huv2
  have h1 : rc.1 = rem := by simpa using congrArg Prod.fst hrc
  refine ⟨uv.1, uv.2, rc.2, hsplit, hall, ?_⟩
  rw [hm, ← h1]

theorem starAlts_complete (cls : Char → Bool) (u v : List Char)
    (hu : u.all cls = true) : (u, v) ∈ starAlts cls (u ++ v) := by
  induction u with
  | nil => cases v <;> simp [starAlts]
  | cons a u' ih =>
    rw [List.all_cons, Bool.and_eq_true] at hu
    rw [List.cons_append]
    show (a :: u', v) ∈ ([], a :: (u' ++ v)) ::
      (if cls a then (starAlts cls (u' ++ v)).map (fun uv => (a :: uv.1, uv.2)) else [])
    rw [if_pos hu.1]
    exact List.mem_cons_of_mem _ (List.mem_map_of_mem _ (ih hu.2))

theorem matchSeq_star_complete (cls : Char → Bool) (greedy cap : Bool)
    (rest : List RItem) (u v : List Char) (hu : u.all cls = true)
    (hv : (matchSeq rest v).isSome = true) :
    (matchSeq (RItem.star cls greedy cap :: rest) (u ++ v)).isSome = true := by
  rw [matchSeq_star_eq]
  have hmem : (u, v) ∈ starAlts cls (u ++ v) := starAlts_complete cls u v hu
  have hmem2 : (u, v) ∈
      (if greedy then (starAlts cls (u ++ v)).reverse else starAlts cls (u ++ v)) := by
    by_cases hg : greedy <;> simp [hg, hmem]
  refine firstSome_isSome_of_mem _ _ (List.mem_map_of_mem _ hmem2) ?_
  simpa using hv

/-! ### Greedy-star step lemmas -/

theorem matchSeq_gstar_cons (cls : Char → Bool) (rest : List RItem) (c : Char)
    (v : List Char) (hc : cls c = true) :
    matchSeq (RItem.star cls true false :: rest) (c :: v) =
      oor (matchSeq (RItem.star cls true false :: rest) v)
        ((matchSeq rest (c :: v)).map (fun rc => (rc.1, rc.2))) := by
  rw [matchSeq_star_eq, matchSeq_star_eq]
  simp only [eq_self_iff_true, if_true]
  have h1 : starAlts cls (c :: v) =
      ([], c :: v) :: (starAlts cls v).map (fun uv => (c :: uv.1, uv.2)) := by
    simp [starAlts, hc]
  rw [h1, List.reverse_cons, List.map_append, firstSome_append]
  congr 1
  · rw [← List.map_reverse, List.map_map]
    congr 1
  · simp [firstSome_singleton]

theorem matchSeq_gstar_stop (cls : Char → Bool) (rest : List RItem) (c : Char)
    (v : List Char) (hc : cls c = false) :
    matchSeq (RItem.star cls true false :: rest) (c :: v) =
      (matchSeq rest (c :: v)).map (fun rc => (rc.1, rc.2)) := by
  rw [matchSeq_star_eq]
  have h1 : starAlts cls (c :: v) = [([], c :: v)] := by simp [starAlts, hc]
  rw [h1]
  simp [firstSome_singleton]

theorem matchSeq_gstar_nil (cls : Char → Bool) (rest : List RItem) :
    matchSeq (RItem.star cls true false :: rest) [] =
      (matchSeq rest []).map (fun rc => (rc.1, rc.2)) := by
  rw [matchSeq_star_eq]
  show firstSome ((starAlts cls []).reverse.map _) = _
  simp [starAlts, firstSome_singleton]

/-! ### The newline-collapsing pattern -/

theorem matchSeq_lit_nl_cons (rest : List RItem) (v : List Char) :
    matchSeq (RItem.lit ['\n'] :: rest) ('\n' :: v) = matchSeq rest v :=
  matchSeq_lit_of_matchLit _ _ _ _ (matchLit_self ['\n'] v)

theorem matchSeq_single_lit_nl (v : List Char) :
    matchSeq [RItem.lit ['\n']] ('\n' :: v) = some (v, []) := by
  rw [matchSeq_lit_nl_cons]
  rfl

theorem collapse_sound (cs rem : List Char) (caps : List (List Char))
    (h : matchSeq collapsePat cs = some (rem, caps)) :
    ∃ w₁ w₂, cs = '\n' :: (w₁ ++ '\n' :: (w₂ ++ '\n' :: rem)) ∧
      w₁.all pyWs = true ∧ w₂.all pyWs = true := by
  simp only [collapsePat] at h
  obtain ⟨cs1, hcs1, h⟩ := matchSeq_lit_sound _ _ _ _ _ h
  obtain ⟨w₁, v₁, caps1, hv₁, hw₁, h⟩ := matchSeq_star_sound _ _ _ _ _ _ _ h
  obtain ⟨v₂, hv₂, h⟩ := matchSeq_lit_sound _ _ _ _ _ h
  obtain ⟨w₂, v₃, caps2, hv₃, hw₂, h⟩ := matchSeq_star_sound _ _ _ _ _ _ _ h
  obtain ⟨v₄, hv₄, h⟩ := matchSeq_lit_sound _ _ _ _ _ h
  rw [matchSeq_nil_pat] at h
  simp only [Option.some.injEq, Prod.mk.injEq] at h
  obtain ⟨h4, -⟩ := h
  refine ⟨w₁, w₂, ?_, hw₁, hw₂⟩
  rw [hcs1, hv₁, hv₂, hv₃, hv₄, ← h4]
  simp

theorem collapse_complete (w₁ w₂ r : List Char) (h₁ : w₁.all pyWs = true)
    (h₂ : w₂.all pyWs = true) :
    (matchSeq collapsePat ('\n' :: (w₁ ++ '\n' :: (w₂ ++ '\n' :: r)))).isSome = true := by
  simp only [collapsePat]
  rw [matchSeq_lit_nl_cons]
  apply matchSeq_star_complete _ _ _ _ w₁ _ h₁
  rw [matchSeq_lit_nl_cons]
  apply matchSeq_star_complete _ _ _ _ w₂ _ h₂
  rw [matchSeq_single_lit_nl]
  rfl

theorem gstar_nl_rem :
    ∀ (v rem : List Char) (caps : List (List Char)),
      matchSeq [RItem.star pyWs true false, RItem.lit ['\n']] v = some (rem, caps) →
        ¬nlUpto rem := by
  intro v
  induction v with
  | nil =>
    intro rem caps h
    rw [show matchSeq [RItem.star pyWs true false, RItem.lit ['\n']] [] = none from by
      rw [matchSeq_gstar_nil, matchSeq_lit_nil_none]; rfl] at h
    exact absurd h (by simp)
  | cons c v' ih =>
    intro rem caps h
    by_cases hc : pyWs c = true
    · rw [matchSeq_gstar_cons _ _ _ _ hc] at h
      cases hr : matchSeq [RItem.star pyWs true false, RItem.lit ['\n']] v' with
      | some rc =>
        rw [hr, oor_some] at h
        obtain rfl : rc = (rem, caps) := by simpa using h
        exact ih _ _ hr
      | none =>
        rw [hr, oor_none] at h
        obtain ⟨⟨rc1, rc2⟩, hmm2, hrc⟩ := Option.map_eq_some'.1 h
        obtain ⟨cs2, hcs2, hm2⟩ := matchSeq_lit_sound _ _ _ _ _ hmm2
        rw [matchSeq_nil_pat] at hm2
        simp only [Option.some.injEq, Prod.mk.injEq] at hm2
        obtain ⟨hcs2eq, -⟩ := hm2
        obtain ⟨-, hv2⟩ : c = '\n' ∧ v' = cs2 := by simpa using hcs2
        have hrem : rem = v' := by
          have := congrArg Prod.fst hrc
          simp at this
          rw [← this, ← hcs2eq, hv2]
        subst hrem
        intro hnl
        obtain ⟨w, r, hveq, hw⟩ := hnl
        have hsome : (matchSeq [RItem.star pyWs true false, RItem.lit ['\n']] rem).isSome
            = true := by
          rw [hveq]
          exact matchSeq_star_complete _ _ _ _ w _ hw
            (by rw [matchSeq_single_lit_nl]; rfl)
        rw [hr] at hsome
        simp at hsome
    · have hcf : pyWs c = false := by simpa using hc
      rw [matchSeq_gstar_stop _ _ _ _ hcf] at h
      obtain ⟨⟨rc1, rc2⟩, hmm2, -⟩ := Option.map_eq_some'.1 h
      obtain ⟨cs2, hcs2, -⟩ := matchSeq_lit_sound _ _ _ _ _ hmm2
      obtain ⟨hc1, -⟩ : c = '\n' ∧ v' = cs2 := by simpa using hcs2
      rw [hc1] at hcf
      simp [pyWs] at hcf

theorem lit_gstar_nl_rem (v rem : List Char) (caps : List (List Char))
    (h : matchSeq [RItem.lit ['\n'], RItem.star pyWs true false, RItem.lit ['\n']] v =
      some (rem, caps)) : ¬nlUpto rem := by
  obtain ⟨cs2, -, h2⟩ := matchSeq_lit_sound _ _ _ _ _ h
  exact gstar_nl_rem cs2 rem caps h2

theorem gstar2_nl_rem :
    ∀ (v rem : List Char) (caps : List (List Char)),
      matchSeq [RItem.star pyWs true false, RItem.lit ['\n'],
        RItem.star pyWs true false, RItem.lit ['\n']] v = some (rem, caps) →
      ¬nlUpto rem := by
  intro v
  induction v with
  | nil =>
    intro rem caps h
    rw [show matchSeq [RItem.star pyWs true false, RItem.lit ['\n'],
        RItem.star pyWs true false, RItem.lit ['\n']] [] = none from by
      rw [matchSeq_gstar_nil, matchSeq_lit_nil_none]; rfl] at h
    exact absurd h (by simp)
  | cons c v' ih =>
    intro rem caps h
    by_cases hc : pyWs c = true
    · rw [matchSeq_gstar_cons _ _ _ _ hc] at h
      cases hr : matchSeq [RItem.star pyWs true false, RItem.lit ['\n'],
          RItem.star pyWs true false, RItem.lit ['\n']] v' with
      | some rc =>
        rw [hr, oor_some] at h
        obtain rfl : rc = (rem, caps) := by simpa using h
        exact ih _ _ hr
      | none =>
        rw [hr, oor_none] at h
        obtain ⟨⟨rc1, rc2⟩, hmm2, hrc⟩ := Option.map_eq_some'.1 h
        have h3 := lit_gstar_nl_rem (c :: v') rc1 rc2 hmm2
        have hrem : rc1 = rem := by
          have := congrArg Prod.fst hrc
          simpa using this
        rwa [hrem] at h3
    · have hcf : pyWs c = false := by simpa using hc
      rw [matchSeq_gstar_stop _ _ _ _ hcf] at h
      obtain ⟨⟨rc1, rc2⟩, hmm2, -⟩ := Option.map_eq_some'.1 h
      obtain ⟨cs2, hcs2, -⟩ := matchSeq_lit_sound _ _ _ _ _ hmm2
      obtain ⟨hc1, -⟩ : c = '\n' ∧ v' = cs2 := by simpa using hcs2
      rw [hc1] at hcf
      simp [pyWs] at hcf

theorem collapse_rem (cs rem : List Char) (caps : List (List Char))
    (h : matchSeq collapsePat cs = some (rem, caps)) : ¬nlUpto rem := by
  simp only [collapsePat] at h
  obtain ⟨cs2, -, h2⟩ := matchSeq_lit_sound _ _ _ _ _ h
  exact gstar2_nl_rem cs2 rem caps h2

/-! ### Case analysis on nlUpto and nl2 -/

theorem nlUpto_cons (c : Char) (cs : List Char) :
    nlUpto (c :: cs) ↔ c = '\n' ∨ (pyWs c = true ∧ nlUpto cs) := by
  constructor
  · rintro ⟨w, r, heq, hw⟩
    cases w with
    | nil =>
      obtain ⟨h1, -⟩ : c = '\n' ∧ cs = r := by simpa using heq
      exact Or.inl h1
    | cons a w' =>
      obtain ⟨h1, h2⟩ : c = a ∧ cs = w' ++ '\n' :: r := by simpa using heq
      rw [List.all_cons, Bool.and_eq_true] at hw
      exact Or.inr ⟨h1 ▸ hw.1, ⟨w', r, h2, hw.2⟩⟩
  · rintro (rfl | ⟨hc, w, r, rfl, hw⟩)
    · exact ⟨[], cs, rfl, rfl⟩
    · exact ⟨c :: w, r, rfl, by simp [List.all_cons, hc, hw]⟩

theorem nl2_cons (c : Char) (cs : List Char) :
    nl2 (c :: cs) ↔ (c = '\n' ∧ nlUpto cs) ∨ (pyWs c = true ∧ nl2 cs) := by
  constructor
  · rintro ⟨w₁, w₂, r, heq, hw₁, hw₂⟩
    cases w₁ with
    | nil =>
      obtain ⟨h1, h2⟩ : c = '\n' ∧ cs = w₂ ++ '\n' :: r := by simpa using heq
      exact Or.inl ⟨h1, ⟨w₂, r, h2, hw₂⟩⟩
    | cons a w₁' =>
      obtain ⟨h1, h2⟩ : c = a ∧ cs = w₁' ++ '\n' :: (w₂ ++ '\n' :: r) := by
        simpa using heq
      rw [List.all_cons, Bool.and_eq_true] at hw₁
      exact Or.inr ⟨h1 ▸ hw₁.1, ⟨w₁', w₂, r, h2, hw₁.2, hw₂⟩⟩
  · rintro (⟨rfl, w, r, rfl, hw⟩ | ⟨hc, w₁, w₂, r, rfl, hw₁, hw₂⟩)
    · exact ⟨[], w, r, rfl, rfl, hw⟩
    · exact ⟨c :: w₁, w₂, r, rfl, by simp [List.all_cons, hc, hw₁], hw₂⟩

theorem nl2_nlUpto (cs : List Char) (h : nl2 cs) : nlUpto cs := by
  obtain ⟨w₁, w₂, r, heq, hw₁, -⟩ := h
  exact ⟨w₁, w₂ ++ '\n' :: r, heq, hw₁⟩

theorem collapse_isSome_iff (c : Char) (cs : List Char) :
    (matchSeq collapsePat (c :: cs)).isSome = true ↔ (c = '\n' ∧ nl2 cs) := by
  constructor
  · intro h
    obtain ⟨⟨rem, caps⟩, hm⟩ := Option.isSome_iff_exists.1 h
    obtain ⟨w₁, w₂, heq, hw₁, hw₂⟩ := collapse_sound _ _ _ hm
    obtain ⟨h1, h2⟩ : c = '\n' ∧ cs = w₁ ++ '\n' :: (w₂ ++ '\n' :: rem) := by
      simpa using heq
    exact ⟨h1, ⟨w₁, w₂, rem, h2, hw₁, hw₂⟩⟩
  · rintro ⟨rfl, w₁, w₂, r, rfl, hw₁, hw₂⟩
    exact collapse_complete w₁ w₂ r hw₁ hw₂

/-! ### The collapsing pass eliminates all triple-newline runs -/

theorem hasTripleRun_cons (c : Char) (cs : List Char) :
    hasTripleRun (c :: cs) =
      ((matchSeq collapsePat (c :: cs)).isSome || hasTripleRun cs) := rfl

theorem reSub_cons_big (p : List RItem) (tmpl : List (List Char) → List Char)
    (c : Char) (cs rem : List Char) (caps : List (List Char))
    (h : matchSeq p (c :: cs) = some (rem, caps))
    (hlen : ¬rem.length < cs.length + 1) :
    reSub p tmpl (c :: cs) = c :: reSub p tmpl cs := by
  show reSubGo p tmpl ((c :: cs).length + 1) (c :: cs) = _
  simp only [List.length_cons, reSubGo, h]
  rw [if_neg hlen]
  rfl

theorem collapse_inv : ∀ (n : Nat) (cs : List Char), cs.length ≤ n →
    hasTripleRun (reSub collapsePat collapseTmpl cs) = false ∧
    (nlUpto (reSub collapsePat collapseTmpl cs) → nlUpto cs) ∧
    (nl2 (reSub collapsePat collapseTmpl cs) → nl2 cs) := by
  intro n
  induction n with
  | zero =>
    intro cs hlen
    obtain rfl : cs = [] := List.length_eq_zero.1 (by omega)
    exact ⟨rfl, fun h => h, fun h => h⟩
  | succ n ih =>
    intro cs hlen
    cases cs with
    | nil => exact ⟨rfl, fun h => h, fun h => h⟩
    | cons c cs' =>
      cases hm : matchSeq collapsePat (c :: cs') with
      | none =>
        rw [reSub_cons_nomatch _ _ _ _ hm]
        obtain ⟨ih1, ih2, ih3⟩ := ih cs' (by simp at hlen; omega)
        have hnone2 : (matchSeq collapsePat
            (c :: reSub collapsePat collapseTmpl cs')).isSome = false := by
          cases hs : (matchSeq collapsePat
              (c :: reSub collapsePat collapseTmpl cs')).isSome with
          | false => rfl
          | true =>
            obtain ⟨hc, h2⟩ := (collapse_isSome_iff _ _).1 hs
            have h4 := (collapse_isSome_iff c cs').2 ⟨hc, ih3 h2⟩
            rw [hm] at h4
            simp at h4
        refine ⟨?_, ?_, ?_⟩
        · rw [hasTripleRun_cons, hnone2, ih1]
          rfl
        · intro h
          rcases (nlUpto_cons _ _).1 h with h2 | ⟨h2, h3⟩
          · exact (nlUpto_cons _ _).2 (Or.inl h2)
          · exact (nlUpto_cons _ _).2 (Or.inr ⟨h2, ih2 h3⟩)
        · intro h
          rcases (nl2_cons _ _).1 h with ⟨h2, h3⟩ | ⟨h2, h3⟩
          · exact (nl2_cons _ _).2 (Or.inl ⟨h2, ih2 h3⟩)
          · exact (nl2_cons _ _).2 (Or.inr ⟨h2, ih3 h3⟩)
      | some rc =>
        obtain ⟨rem, caps⟩ := rc
        obtain ⟨w₁, w₂, heq, hw₁, hw₂⟩ := collapse_sound _ _ _ hm
        obtain ⟨hceq, hcs'⟩ : c = '\n' ∧ cs' = w₁ ++ '\n' :: (w₂ ++ '\n' :: rem) := by
          simpa using heq
        have hlenrem : rem.length ≤ cs'.length := by
          have := congrArg List.length hcs'
          simp at this
          omega
        rw [reSub_cons_match _ _ _ _ _ _ hm (by omega)]
        obtain ⟨ih1, ih2, ih3⟩ := ih rem (by simp at hlen; omega)
        have hnlr : ¬nlUpto rem := collapse_rem _ _ _ hm
        have hnlout : ¬nlUpto (reSub collapsePat collapseTmpl rem) :=
          fun hh => hnlr (ih2 hh)
        show hasTripleRun ('\n' :: '\n' :: reSub collapsePat collapseTmpl rem) = false ∧
          (nlUpto ('\n' :: '\n' :: reSub collapsePat collapseTmpl rem) → nlUpto (c :: cs')) ∧
          (nl2 ('\n' :: '\n' :: reSub collapsePat collapseTmpl rem) → nl2 (c :: cs'))
        refine ⟨?_, ?_, ?_⟩
        · have hs1 : (matchSeq collapsePat
              ('\n' :: '\n' :: reSub collapsePat collapseTmpl rem)).isSome = false := by
            cases hs : (matchSeq collapsePat
                ('\n' :: '\n' :: reSub collapsePat collapseTmpl rem)).isSome with
            | false => rfl
            | true =>
              obtain ⟨-, h2⟩ := (collapse_isSome_iff _ _).1 hs
              rcases (nl2_cons _ _).1 h2 with ⟨-, h3⟩ | ⟨-, h3⟩
              · exact absurd h3 hnlout
              · exact absurd (nl2_nlUpto _ h3) hnlout
          have hs2 : (matchSeq collapsePat
              ('\n' :: reSub collapsePat collapseTmpl rem)).isSome = false := by
            cases hs : (matchSeq collapsePat
                ('\n' :: reSub collapsePat collapseTmpl rem)).isSome with
            | false => rfl
            | true =>
              obtain ⟨-, h2⟩ := (collapse_isSome_iff _ _).1 hs
              exact absurd (nl2_nlUpto _ h2) hnlout
          rw [hasTripleRun_cons, hs1, hasTripleRun_cons, hs2, ih1]
          rfl
        · exact fun _ => (nlUpto_cons _ _).2 (Or.inl hceq)
        · exact fun _ => (nl2_cons _ _).2
            (Or.inl ⟨hceq, ⟨w₁, w₂ ++ '\n' :: rem, hcs', hw₁⟩⟩)

theorem collapse_noTriple (cs : List Char) :
    hasTripleRun (reSub collapsePat collapseTmpl cs) = false :=
  (collapse_inv cs.length cs (le_refl _)).1

/-! ### Character membership in reSub output, and monotonicity of
hasTripleRun under prefixes and suffixes -/

theorem reSub_mem (p : List RItem) (tmpl : List (List Char) → List Char) :
    ∀ (n : Nat) (cs : List Char), cs.length ≤ n → ∀ c ∈ reSub p tmpl cs,
      c ∈ cs ∨ ∃ caps, c ∈ tmpl caps := by
  intro n
  induction n with
  | zero =>
    intro cs hlen
    obtain rfl : cs = [] := List.length_eq_zero.1 (by omega)
    intro c hc
    rw [reSub_nil] at hc
    exact absurd hc (List.not_mem_nil c)
  | succ n ih =>
    intro cs hlen
    cases cs with
    | nil =>
      intro c hc
      rw [reSub_nil] at hc
      exact absurd hc (List.not_mem_nil c)
    | cons c0 cs' =>
      intro c hc
      cases hm : matchSeq p (c0 :: cs') with
      | none =>
        rw [reSub_cons_nomatch _ _ _ _ hm] at hc
        rcases List.mem_cons.1 hc with h2 | h2
        · exact Or.inl (by rw [h2]; exact List.mem_cons_self _ _)
        · rcases ih cs' (by simp at hlen; omega) c h2 with h3 | h3
          · exact Or.inl (List.mem_cons_of_mem _ h3)
          · exact Or.inr h3
      | some rc =>
        obtain ⟨rem, caps⟩ := rc
        by_cases hlen2 : rem.length < cs'.length + 1
        · rw [reSub_cons_match _ _ _ _ _ _ hm (by omega)] at hc
          rcases List.mem_append.1 hc with h2 | h2
          · exact Or.inr ⟨caps, h2⟩
          · rcases ih rem (by simp at hlen; omega) c h2 with h3 | h3
            · exact Or.inl ((matchSeq_suffix p _ _ _ hm).subset h3)
            · exact Or.inr h3
        · rw [reSub_cons_big _ _ _ _ _ _ hm hlen2] at hc
          rcases List.mem_cons.1 hc with h2 | h2
          · exact Or.inl (by rw [h2]; exact List.mem_cons_self _ _)
          · rcases ih cs' (by simp at hlen; omega) c h2 with h3 | h3
            · exact Or.inl (List.mem_cons_of_mem _ h3)
            · exact Or.inr h3

theorem nl2_of_prefix (d e : List Char) (h : nl2 d) (hp : d.IsPrefix e) : nl2 e := by
  obtain ⟨w₁, w₂, r, rfl, hw₁, hw₂⟩ := h
  obtain ⟨t, rfl⟩ := hp
  exact ⟨w₁, w₂, r ++ t, by simp, hw₁, hw₂⟩

theorem hasTripleRun_suffix_mono (cs : List Char) (h : hasTripleRun cs = false) :
    ∀ d, d.IsSuffix cs → hasTripleRun d = false := by
  induction cs with
  | nil =>
    intro d hd
    rw [List.suffix_nil.1 hd]
    rfl
  | cons c cs' ih =>
    intro d hd
    rw [hasTripleRun_cons, Bool.or_eq_false_iff] at h
    rcases List.suffix_cons_iff.1 hd with hd2 | hd2
    · rw [hd2, hasTripleRun_cons, h.1, ih h.2 cs' (List.suffix_refl _)]
      rfl
    · exact ih h.2 d hd2

theorem hasTripleRun_prefix_mono :
    ∀ (d cs : List Char), hasTripleRun cs = false → d.IsPrefix cs →
      hasTripleRun d = false := by
  intro d
  induction d with
  | nil => intro cs h hp; rfl
  | cons c d' ih =>
    intro cs h hp
    obtain ⟨t, rfl⟩ := hp
    rw [List.cons_append] at h
    rw [hasTripleRun_cons, Bool.or_eq_false_iff] at h
    rw [hasTripleRun_cons, ih (d' ++ t) h.2 ⟨t, rfl⟩, Bool.or_false]
    cases hs : (matchSeq collapsePat (c :: d')).isSome with
    | false => rfl
    | true =>
      obtain ⟨hc, h2⟩ := (collapse_isSome_iff _ _).1 hs
      have h4 := (collapse_isSome_iff c (d' ++ t)).2 ⟨hc, nl2_of_prefix _ _ h2 ⟨t, rfl⟩⟩
      rw [h.1] at h4
      simp at h4

theorem hasTripleRun_pyStrip (cs : List Char) (h : hasTripleRun cs = false) :
    hasTripleRun (pyStrip cs) = false := by
  have h1 := hasTripleRun_suffix_mono cs h (cs.dropWhile pyWs) (List.dropWhile_suffix _)
  refine hasTripleRun_prefix_mono _ _ h1 ?_
  show ((cs.dropWhile pyWs).reverse.dropWhile pyWs).reverse <+: cs.dropWhile pyWs
  have h2 : (cs.dropWhile pyWs).reverse.dropWhile pyWs <:+ (cs.dropWhile pyWs).reverse :=
    List.dropWhile_suffix _
  have h3 := List.reverse_prefix.mpr h2
  simpa using h3

/-! ### Claim C1: whitespace normalisation -/

theorem convert_data (s : String) :
    (convert s).data = pyStrip (reSub pilcrowPat dropTmpl
      (reSub collapsePat collapseTmpl (preWhitespace s.data))) := by
  simp only [convert, html_to_markdown, html_to_markdown_chars]

/-- Claim C1 (amended): for any input in which neither artifact character
'Â' (U+00C2) nor '¶' (U+00B6) occurs in the text reaching the
whitespace-normalisation step (the pipeline text after tag stripping and
entity decoding), the output of convert contains no run of three or more
newlines separated only by whitespace — in particular at most two
consecutive newlines, hence at most one consecutive blank line. -/
theorem convert_collapses_blank_lines (s : String)
    (h1 : 'Â' ∉ preWhitespace s.data) (h2 : '¶' ∉ preWhitespace s.data) :
    hasTripleRun (convert s).data = false := by
  rw [convert_data]
  have hpil : reSub pilcrowPat dropTmpl
      (reSub collapsePat collapseTmpl (preWhitespace s.data)) =
      reSub collapsePat collapseTmpl (preWhitespace s.data) := by
    apply reSub_noop
    intro c cs2 hs
    have hc : c ∈ reSub collapsePat collapseTmpl (preWhitespace s.data) :=
      hs.subset (List.mem_cons_self _ _)
    have hcc : c ∈ preWhitespace s.data ∨ c = '\n' := by
      rcases reSub_mem collapsePat collapseTmpl _ _ (le_refl _) c hc with h3 | ⟨caps, h3⟩
      · exact Or.inl h3
      · right
        simpa [collapseTmpl] using h3
    show matchSeq (RItem.one pilcrowCls :: []) (c :: cs2) = none
    apply matchSeq_one_neg
    have hne1 : c ≠ 'Â' := by
      rintro rfl
      rcases hcc with h3 | h3
      · exact h1 h3
      · simp at h3
    have hne2 : c ≠ '¶' := by
      rintro rfl
      rcases hcc with h3 | h3
      · exact h2 h3
      · simp at h3
    simp [pilcrowCls, hne1, hne2]
  rw [hpil]
  exact hasTripleRun_pyStrip _ (collapse_noTriple _)

/-- Claim C1 counterexample: the input below produces three consecutive
blank lines (runs of four newlines) around a pilcrow character, yet the
output of convert contains a run of four consecutive newlines: the artifact
removal of line 145 of txt.py runs after the newline collapsing of line 144
and merges the two collapsed runs. -/
theorem convert_blank_lines_counterexample :
    convert "x\n\n\n\n¶\n\n\n\ny" = "x\n\n\n\ny" ∧
      hasTripleRun (convert "x\n\n\n\n¶\n\n\n\ny").data = true := by
  constructor
  · rfl
  · rfl

/-- Witness for the amended claim C1 at a concrete input with three
consecutive blank-line-producing newlines and no artifact characters. -/
theorem convert_collapses_blank_lines_witness :
    ('Â' ∉ preWhitespace "a\n \n\t\nb".data ∧ '¶' ∉ preWhitespace "a\n \n\t\nb".data) ∧
      hasTripleRun (convert "a\n \n\t\nb").data = false :=
  ⟨⟨by decide, by decide⟩,
    convert_collapses_blank_lines "a\n \n\t\nb" (by decide) (by decide)⟩

/-! ### Claim C9: artifact characters never survive -/

theorem reSub_one_removes (cls : Char → Bool) :
    ∀ (n : Nat) (cs : List Char), cs.length ≤ n →
      ∀ c ∈ reSub [RItem.one cls] dropTmpl cs, cls c = false := by
  intro n
  induction n with
  | zero =>
    intro cs hlen c hc
    obtain rfl : cs = [] := List.length_eq_zero.1 (by omega)
    rw [reSub_nil] at hc
    exact absurd hc (List.not_mem_nil c)
  | succ n ih =>
    intro cs hlen c hc
    cases cs with
    | nil =>
      rw [reSub_nil] at hc
      exact absurd hc (List.not_mem_nil c)
    | cons c0 cs' =>
      cases hcls : cls c0 with
      | true =>
        have hm : matchSeq [RItem.one cls] (c0 :: cs') = some (cs', []) := by
          rw [matchSeq_one_pos _ _ _ _ hcls, matchSeq_nil_pat]
        rw [reSub_cons_match _ _ _ _ _ _ hm (le_refl _)] at hc
        rw [show dropTmpl [] = [] from rfl, List.nil_append] at hc
        exact ih cs' (by simp at hlen; omega) c hc
      | false =>
        rw [reSub_cons_nomatch _ _ _ _ (matchSeq_one_neg _ _ _ _ hcls)] at hc
        rcases List.mem_cons.1 hc with h2 | h2
        · rw [h2]; exact hcls
        · exact ih cs' (by simp at hlen; omega) c h2

theorem pyStrip_subset (cs : List Char) : ∀ c ∈ pyStrip cs, c ∈ cs := by
  intro c hc
  unfold pyStrip at hc
  rw [List.mem_reverse] at hc
  have h1 := (List.dropWhile_suffix _).subset hc
  rw [List.mem_reverse] at h1
  exact (List.dropWhile_suffix _).subset h1

/-- Claim C9: the artifact-stripping rule re.sub(r'[Â¶]', ...) is a character
class, so it deletes every individual occurrence of 'Â' (U+00C2) and of
'¶' (U+00B6) wherever it occurs — not only the two-character sequence 'Â¶' —
and consequently the output of convert never contains either character for
any input. -/
theorem convert_no_artifact_chars :
    (∀ s : String, 'Â' ∉ (convert s).data ∧ '¶' ∉ (convert s).data) ∧
      convert "xÂy" = "xy" ∧ convert "x¶y" = "xy" ∧ convert "a¶bÂc" = "abc" := by
  refine ⟨?_, rfl, rfl, rfl⟩
  intro s
  rw [convert_data]
  constructor <;> intro hmem
  · have h1 := pyStrip_subset _ _ hmem
    have h2 := reSub_one_removes pilcrowCls _ _ (le_refl _) _ h1
    simp [pilcrowCls] at h2
  · have h1 := pyStrip_subset _ _ hmem
    have h2 := reSub_one_removes pilcrowCls _ _ (le_refl _) _ h1
    simp [pilcrowCls] at h2

/-! ### Claim C10: entity decoding happens after tag stripping -/

/-- Claim C10: because entity decoding (line 141 of txt.py) runs after the
raw-tag-stripping step (line 137), entity-encoded markup is never treated as
markup: the script rule does not remove the payload and the decoded angle
brackets are not stripped. -/
theorem convert_entity_encoded_markup :
    convert "&lt;script&gt;alert(1)&lt;/script&gt;" = "<script>alert(1)</script>" := rfl

/-! ### Claims C4, C5, C7: the batch entry point -/

/-- Claim C4: if the batch entry point is invoked with a non-None exception,
the whole conversion batch is skipped: no per-document markdown file and no
combined llms.txt is written. -/
theorem generate_markdown_files_skip_on_exception (e : String) (b : Bool)
    (files : List HtmlFile) :
    generate_markdown_files (some e) b files = [] := rfl

/-- Claim C5: a document that fails (here: b.html whose write raises) is
skipped while the batch continues: only a.html.md is written, and the
combined file contains only the section of a.html.md. -/
theorem generate_markdown_files_per_doc_failure (na nb ca cb : String) :
    generate_markdown_files none true
        [⟨na ++ ".html", Except.ok ca, true⟩, ⟨nb ++ ".html", Except.ok cb, false⟩] =
      [(na ++ ".html" ++ ".md", html_to_markdown ca),
       ("llms.txt", "# " ++ (na ++ ".html" ++ ".md") ++ "\n\n" ++
         html_to_markdown ca ++ "\n\n")] := by
  simp [generate_markdown_files, convert_html_to_markdown, llmsContent, sectionOf]

theorem llmsContent_eq (gen : List (String × String)) :
    llmsContent gen = String.join (gen.map sectionOf) := by
  unfold llmsContent String.join
  rw [List.foldl_map]

/-- Claim C7: on the success path the writes are the generated markdown
files in discovery order followed by llms.txt at the root, whose content is
one section per successfully generated file, in order, each section a
level-1 heading with the generated file name, a blank line, the file
content, and a blank separator line. -/
theorem generate_markdown_files_combined (files : List HtmlFile) :
    generate_markdown_files none true files =
      files.filterMap convert_html_to_markdown ++
        [("llms.txt",
          String.join ((files.filterMap convert_html_to_markdown).map
            (fun p => "# " ++ p.1 ++ "\n\n" ++ p.2 ++ "\n\n")))] := by
  have hsec : sectionOf = fun p : String × String =>
      "# " ++ p.1 ++ "\n\n" ++ p.2 ++ "\n\n" := by
    funext p
    rfl
  simp [generate_markdown_files, llmsContent_eq, hsec]

/-! ### Toolkit for the tag-rewriting rules -/

theorem plain_facts (t : List Char) (h : t.all plainChar = true) :
    '<' ∉ t ∧ '&' ∉ t ∧ 'Â' ∉ t ∧ '¶' ∉ t ∧ '\n' ∉ t := by
  refine ⟨?_, ?_, ?_, ?_, ?_⟩ <;> intro hm <;>
    first
    | (have h2 := List.all_eq_true.1 h _ hm; simp [plainChar] at h2)

theorem neC_all_not_mem (a : Char) (u : List Char) (h : u.all (neC a) = true) :
    a ∉ u := by
  intro hm
  have h2 := List.all_eq_true.1 h a hm
  simp [neC] at h2

theorem matchSeq_lit_step (l : List Char) (rest : List RItem) (v : List Char) :
    matchSeq (RItem.lit l :: rest) (l ++ v) = matchSeq rest v :=
  matchSeq_lit_of_matchLit _ _ _ _ (matchLit_self l v)

theorem matchSeq_lit_drop_ne (a : Char) (l : List Char) (rest : List RItem)
    (u v : List Char) (hu : a ∉ u) (k : Nat) (hk : k < u.length) :
    matchSeq (RItem.lit (a :: l) :: rest) (u.drop k ++ v) = none := by
  cases hd : u.drop k with
  | nil =>
    have h2 := congrArg List.length hd
    simp at h2
    omega
  | cons c cs' =>
    rw [List.cons_append]
    apply matchSeq_lit_head_ne
    intro hc
    apply hu
    rw [← hc]
    exact (List.drop_subset k u) (hd ▸ List.mem_cons_self c cs')

theorem matchSeq_neGt_star (rest : List RItem) (u tail : List Char)
    (hu : u.all (neC '>') = true) :
    matchSeq (RItem.star (neC '>') true false :: RItem.lit ['>'] :: rest)
        (u ++ '>' :: tail) =
      (matchSeq rest tail).map (fun rc => (rc.1, rc.2)) := by
  have hstop : headStop (neC '>') ('>' :: tail) := by
    show neC '>' '>' = false
    simp [neC]
  have hnotmem : '>' ∉ u := neC_all_not_mem _ _ hu
  have hexit : matchSeq (RItem.lit ['>'] :: rest) (u.drop u.length ++ '>' :: tail) =
      matchSeq rest tail := by
    rw [List.drop_length, List.nil_append]
    exact matchSeq_lit_step ['>'] rest tail
  cases hr : matchSeq rest tail with
  | some rc =>
    obtain ⟨rem, caps⟩ := rc
    have h2 := matchSeq_gstar_eval (neC '>') false (RItem.lit ['>'] :: rest) u
      ('>' :: tail) u.length rem caps hu hstop (le_refl _)
      (by rw [hexit, hr]) (fun k hk1 hk2 => by omega)
    simpa using h2
  | none =>
    have h2 := matchSeq_gstar_none (neC '>') false (RItem.lit ['>'] :: rest) u
      ('>' :: tail) hu hstop (fun k hk => by
        rcases Nat.lt_or_ge k u.length with hk2 | hk2
        · exact matchSeq_lit_drop_ne '>' [] rest u ('>' :: tail) hnotmem k hk2
        · have hke : k = u.length := by omega
          rw [hke, hexit, hr])
    simp [h2]

theorem matchSeq_lazy_close_fail (cap : Bool) (a : Char) (l w tail : List Char)
    (hfail : ∀ k, k < w.length →
      matchSeq [RItem.lit (a :: l)] (w.drop k ++ ((a :: l) ++ tail)) = none) :
    matchSeq [RItem.star anyC false cap, RItem.lit (a :: l)]
      (w ++ ((a :: l) ++ tail)) = some (tail, if cap then [w] else []) := by
  have h2 := matchSeq_lstar_eval anyC cap [RItem.lit (a :: l)]
    (w ++ ((a :: l) ++ tail)) w.length tail []
    (List.all_eq_true.2 fun _ _ => rfl)
    (by simp)
    (by rw [List.drop_left]
        rw [matchSeq_lit_step (a :: l) [] tail]
        rfl)
    (fun k hk => by
      rw [List.drop_append_of_le_length (by omega)]
      exact hfail k hk)
  rw [List.take_left] at h2
  cases cap <;> simpa using h2

theorem matchSeq_lazy_close (cap : Bool) (a : Char) (l : List Char)
    (text tail : List Char) (hne : a ∉ text) :
    matchSeq [RItem.star anyC false cap, RItem.lit (a :: l)]
      (text ++ ((a :: l) ++ tail)) = some (tail, if cap then [text] else []) :=
  matchSeq_lazy_close_fail cap a l text tail
    (fun k hk => matchSeq_lit_drop_ne a l [] text ((a :: l) ++ tail) hne k hk)

theorem reSub_noop_occursB2 (p : List RItem) (l : List Char) (rest : List RItem)
    (hp : p = RItem.lit l :: rest) (tmpl : List (List Char) → List Char)
    (cs : List Char) (h : occursB l cs = false) : reSub p tmpl cs = cs := by
  rw [hp]
  exact reSub_noop_occursB _ _ _ _ h

theorem reSub_noop_not_mem2 (p : List RItem) (a : Char) (l : List Char)
    (rest : List RItem) (hp : p = RItem.lit (a :: l) :: rest)
    (tmpl : List (List Char) → List Char) (cs : List Char) (h : a ∉ cs) :
    reSub p tmpl cs = cs := by
  rw [hp]
  exact reSub_noop_not_mem _ _ _ _ _ h

theorem reSub_pilcrow_noop (cs : List Char) (h1 : 'Â' ∉ cs) (h2 : '¶' ∉ cs) :
    reSub pilcrowPat dropTmpl cs = cs := by
  apply reSub_noop
  intro c cs2 hs
  show matchSeq (RItem.one pilcrowCls :: []) (c :: cs2) = none
  apply matchSeq_one_neg
  have hc := hs.subset (List.mem_cons_self c cs2)
  have hne1 : ¬c = 'Â' := fun hh => h1 (hh ▸ hc)
  have hne2 : ¬c = '¶' := fun hh => h2 (hh ▸ hc)
  simp [pilcrowCls, hne1, hne2]

theorem headStop_append_left (cls : Char → Bool) (x y : List Char) (hx : x ≠ [])
    (h : headStop cls x) : headStop cls (x ++ y) := by
  cases x with
  | nil => exact absurd rfl hx
  | cons c x' => exact h

theorem string_eq_of_data (s t : String) (h : s.data = t.data) : s = t := by
  cases s
  cases t
  exact congrArg String.mk h

theorem reSub_skip2 (p : List RItem) (a : Char) (l : List Char) (rest : List RItem)
    (hp : p = RItem.lit (a :: l) :: rest) (tmpl : List (List Char) → List Char)
    (pre post : List Char) (h : a ∉ pre) :
    reSub p tmpl (pre ++ post) = pre ++ reSub p tmpl post := by
  rw [hp]
  exact reSub_skip _ _ _ _ _ _ h

/-! ### Claim C3: unmatched tags fall through to the raw tag strip -/

theorem occursB_span_input (a2 : Char) (l text : List Char) (hlt : '<' ∉ text)
    (hm1 : (matchLit ('<' :: a2 :: l)
      ('<' :: 's' :: 'p' :: 'a' :: 'n' :: '>'::(text ++
        ('<' :: '/' :: 's' :: 'p' :: 'a' :: 'n' :: '>'::[])))).isSome = false)
    (hm2 : occursB ('<' :: a2 :: l) ('<' :: '/' :: 's' :: 'p' :: 'a' :: 'n' :: '>'::[]) = false) :
    occursB ('<' :: a2 :: l)
      ('<' :: 's' :: 'p' :: 'a' :: 'n' :: '>'::(text ++
        ('<' :: '/' :: 's' :: 'p' :: 'a' :: 'n' :: '>'::[]))) = false := by
  rw [occursB_cons_eq, hm1, Bool.false_or, occursB_cons_eq, occursB_cons_eq,
    occursB_cons_eq, occursB_cons_eq, occursB_cons_eq,
    occursB_append_plain '<' (a2 :: l) text _ hlt, hm2]
  simp [matchLit]

/-- Claim C3: convert never fails: it is a total function by construction in
this embedding, returning a string (possibly empty: convert of the empty
string is the empty string), and a tag not matched by any specific rewrite
rule (here an unhandled span element, universally over its plain inner text)
survives every rewrite rule untouched and is removed by the final
raw-tag-stripping step, its inner text surviving unchanged. -/
theorem convert_unmatched_tag_fallthrough (text : String)
    (hplain : text.data.all plainChar = true)
    (hhead : headStop pyWs text.data) (hlast : headStop pyWs text.data.reverse) :
    convert ("<span>" ++ text ++ "</span>") = text ∧ convert "" = "" := by
  obtain ⟨hlt, hamp, hA, hP, hnl⟩ := plain_facts text.data hplain
  refine ⟨?_, rfl⟩
  have hS : ("<span>" ++ text ++ "</span>").data =
      '<' :: 's' :: 'p' :: 'a' :: 'n' :: '>'::(text.data ++
        ('<' :: '/' :: 's' :: 'p' :: 'a' :: 'n' :: '>'::[])) := rfl
  have hstrip : stripMarkup ('<' :: 's' :: 'p' :: 'a' :: 'n' :: '>'::(text.data ++
      ('<' :: '/' :: 's' :: 'p' :: 'a' :: 'n' :: '>'::[]))) = text.data := by
    unfold stripMarkup
    rw [reSub_noop_occursB2 scriptPat _ _ rfl _ _
      (occursB_span_input 's' "cript".data text.data hlt (by simp [matchLit]) (by decide))]
    rw [reSub_noop_occursB2 stylePat _ _ rfl _ _
      (occursB_span_input 's' "tyle".data text.data hlt (by simp [matchLit]) (by decide))]
    rw [reSub_noop_occursB2 navPat _ _ rfl _ _
      (occursB_span_input 'n' "av".data text.data hlt (by simp [matchLit]) (by decide))]
    rw [reSub_noop_occursB2 footerPat _ _ rfl _ _
      (occursB_span_input 'f' "ooter".data text.data hlt (by simp [matchLit]) (by decide))]
    rw [reSub_noop_occursB2 divRelatedPat _ _ rfl _ _
      (occursB_span_input 'd' "iv".data text.data hlt (by simp [matchLit]) (by decide))]
    rw [reSub_noop_occursB2 divSidebarPat _ _ rfl _ _
      (occursB_span_input 'd' "iv".data text.data hlt (by simp [matchLit]) (by decide))]
    rw [reSub_noop_occursB2 (hPat '1') _ _ rfl _ _
      (occursB_span_input 'h' "1".data text.data hlt (by simp [matchLit]) (by decide))]
    rw [reSub_noop_occursB2 (hPat '2') _ _ rfl _ _
      (occursB_span_input 'h' "2".data text.data hlt (by simp [matchLit]) (by decide))]
    rw [reSub_noop_occursB2 (hPat '3') _ _ rfl _ _
      (occursB_span_input 'h' "3".data text.data hlt (by simp [matchLit]) (by decide))]
    rw [reSub_noop_occursB2 (hPat '4') _ _ rfl _ _
      (occursB_span_input 'h' "4".data text.data hlt (by simp [matchLit]) (by decide))]
    rw [reSub_noop_occursB2 (hPat '5') _ _ rfl _ _
      (occursB_span_input 'h' "5".data text.data hlt (by simp [matchLit]) (by decide))]
    rw [reSub_noop_occursB2 (hPat '6') _ _ rfl _ _
      (occursB_span_input 'h' "6".data text.data hlt (by simp [matchLit]) (by decide))]
    rw [reSub_noop_occursB2 pPat _ _ rfl _ _
      (occursB_span_input 'p' [] text.data hlt (by simp [matchLit]) (by decide))]
    rw [reSub_noop_occursB2 aPat _ _ rfl _ _
      (occursB_span_input 'a' [] text.data hlt (by simp [matchLit]) (by decide))]
    rw [reSub_noop_occursB2 strongPat _ _ rfl _ _
      (occursB_span_input 's' "trong".data text.data hlt (by simp [matchLit]) (by decide))]
    rw [reSub_noop_occursB2 bPat _ _ rfl _ _
      (occursB_span_input 'b' [] text.data hlt (by simp [matchLit]) (by decide))]
    rw [reSub_noop_occursB2 emPat _ _ rfl _ _
      (occursB_span_input 'e' "m".data text.data hlt (by simp [matchLit]) (by decide))]
    rw [reSub_noop_occursB2 iPat _ _ rfl _ _
      (occursB_span_input 'i' [] text.data hlt (by simp [matchLit]) (by decide))]
    rw [reSub_noop_occursB2 liPat _ _ rfl _ _
      (occursB_span_input 'l' "i".data text.data hlt (by simp [matchLit]) (by decide))]
    rw [reSub_noop_occursB2 preCodePat _ _ rfl _ _
      (occursB_span_input 'p' "re".data text.data hlt (by simp [matchLit]) (by decide))]
    rw [reSub_noop_occursB2 codePat _ _ rfl _ _
      (occursB_span_input 'c' "ode".data text.data hlt (by simp [matchLit]) (by decide))]
    have hm : matchSeq tagPat ('<' :: 's' :: 'p' :: 'a' :: 'n' :: '>'::(text.data ++
        ('<' :: '/' :: 's' :: 'p' :: 'a' :: 'n' :: '>'::[]))) =
        some (text.data ++ ('<' :: '/' :: 's' :: 'p' :: 'a' :: 'n' :: '>'::[]), []) := by
      show matchSeq (RItem.lit ['<'] :: RItem.star (neC '>') true false ::
        RItem.lit ['>'] :: []) (['<'] ++ ("span".data ++
          ('>' :: (text.data ++ ('<' :: '/' :: 's' :: 'p' :: 'a' :: 'n' :: '>'::[]))))) = _
      rw [matchSeq_lit_step ['<'] _ _,
        matchSeq_neGt_star _ "span".data _ (by decide), matchSeq_nil_pat]
      rfl
    rw [reSub_cons_match _ _ _ _ _ _ hm (by simp)]
    rw [show dropTmpl ([] : List (List Char)) = [] from rfl, List.nil_append]
    rw [reSub_skip2 tagPat '<' _ _ rfl _ text.data _ hlt]
    rw [show reSub tagPat dropTmpl ('<' :: '/' :: 's' :: 'p' :: 'a' :: 'n' :: '>'::[]) = []
      from by decide]
    exact List.append_nil _
  have hdata : (convert ("<span>" ++ text ++ "</span>")).data = text.data := by
    rw [convert_data]
    simp only [preWhitespace]
    rw [hS, hstrip, pyUnescape_noamp _ hamp,
      reSub_noop_not_mem2 collapsePat '\n' _ _ rfl _ _ hnl,
      reSub_pilcrow_noop _ hA hP]
    exact pyStrip_eq_self _ hhead hlast
  exact string_eq_of_data _ _ (by rw [hdata])

/-! ### Claim C8: related-div removal stops at the nearest closing div -/

theorem headStop_neC (a : Char) (t : List Char) : headStop (neC a) (a :: t) := by
  show neC a a = false
  simp [neC]

theorem occursB_div_input (a2 : Char) (l keep : List Char) (hlt : '<' ∉ keep)
    (hm1 : (matchLit ('<' :: a2 :: l)
      ('<'::("div class=\"related\">".data ++ ('<'::("div>y".data ++
        ('<'::("/div>".data ++ (keep ++ ('<' :: "/div>".data))))))))).isSome = false)
    (hm2 : (matchLit ('<' :: a2 :: l) ('<'::("div>y".data ++
        ('<'::("/div>".data ++ (keep ++ ('<' :: "/div>".data))))))).isSome = false)
    (hm3 : (matchLit ('<' :: a2 :: l)
      ('<'::("/div>".data ++ (keep ++ ('<' :: "/div>".data))))).isSome = false)
    (hm4 : occursB ('<' :: a2 :: l) ('<' :: "/div>".data) = false) :
    occursB ('<' :: a2 :: l)
      ('<'::("div class=\"related\">".data ++ ('<'::("div>y".data ++
        ('<'::("/div>".data ++ (keep ++ ('<' :: "/div>".data)))))))) = false := by
  rw [occursB_cons_eq, hm1, Bool.false_or,
    occursB_append_plain '<' (a2 :: l) "div class=\"related\">".data _ (by decide),
    occursB_cons_eq, hm2, Bool.false_or,
    occursB_append_plain '<' (a2 :: l) "div>y".data _ (by decide),
    occursB_cons_eq, hm3, Bool.false_or,
    occursB_append_plain '<' (a2 :: l) "/div>".data _ (by decide),
    occursB_append_plain '<' (a2 :: l) keep _ hlt, hm4]

/-- Claim C8: removal of a div whose class contains 'related' extends from
the opening tag to the nearest following literal close-div, not the
structurally balanced one: for an outer related div containing a nested div,
removal stops at the nested div's close tag, the remainder of the outer
div's content survives in the output (universally over that plain
remainder), and the dangling outer close tag is later stripped as a raw
tag. -/
theorem convert_div_nearest_close (keep : String)
    (hplain : keep.data.all plainChar = true)
    (hhead : headStop pyWs keep.data) (hlast : headStop pyWs keep.data.reverse) :
    convert ("<div class=\"related\"><div>y</div>" ++ keep ++ "</div>") = keep := by
  obtain ⟨hlt, hamp, hA, hP, hnl⟩ := plain_facts keep.data hplain
  have hS : ("<div class=\"related\"><div>y</div>" ++ keep ++ "</div>").data =
      '<'::("div class=\"related\">".data ++ ('<'::("div>y".data ++
        ('<'::("/div>".data ++ (keep.data ++ ('<' :: "/div>".data))))))) := rfl
  -- the match of the related-div rule: up to the nested close tag only
  have h6 : matchSeq [RItem.star anyC false false, RItem.lit "</div>".data]
      ("<div>y".data ++ ("</div>".data ++ (keep.data ++ "</div>".data))) =
      some (keep.data ++ "</div>".data, []) := by
    have := matchSeq_lazy_close_fail false '<' "/div>".data "<div>y".data
      (keep.data ++ "</div>".data)
      (fun k hk => by
        have hlen6 : ("<div>y".data).length = 6 := rfl
        have hk6 : k < 6 := by omega
        interval_cases k <;> exact matchSeq_lit_of_none _ _ _ rfl)
    simpa using this
  have h5 : matchSeq [RItem.lit ">".data, RItem.star anyC false false,
      RItem.lit "</div>".data]
      ('>'::("<div>y".data ++ ("</div>".data ++ (keep.data ++ "</div>".data)))) =
      some (keep.data ++ "</div>".data, []) := by
    rw [show ('>'::("<div>y".data ++ ("</div>".data ++ (keep.data ++ "</div>".data)))) =
      ">".data ++ ("<div>y".data ++ ("</div>".data ++ (keep.data ++ "</div>".data)))
      from rfl]
    rw [matchSeq_lit_step ">".data _ _]
    exact h6
  have h4 : matchSeq [RItem.star (neC '>') true false, RItem.lit ">".data,
      RItem.star anyC false false, RItem.lit "</div>".data]
      ('>'::("<div>y".data ++ ("</div>".data ++ (keep.data ++ "</div>".data)))) =
      some (keep.data ++ "</div>".data, []) := by
    rw [matchSeq_gstar_stop _ _ _ _ (by simp [neC]), h5]
    rfl
  have h3 : matchSeq [RItem.lit "\"".data, RItem.star (neC '>') true false,
      RItem.lit ">".data, RItem.star anyC false false, RItem.lit "</div>".data]
      ('"' :: '>'::("<div>y".data ++ ("</div>".data ++ (keep.data ++ "</div>".data)))) =
      some (keep.data ++ "</div>".data, []) := by
    rw [show ('"' :: '>'::("<div>y".data ++ ("</div>".data ++ (keep.data ++ "</div>".data)))) =
      "\"".data ++ ('>'::("<div>y".data ++ ("</div>".data ++ (keep.data ++ "</div>".data))))
      from rfl]
    rw [matchSeq_lit_step "\"".data _ _]
    exact h4
  have h2b : matchSeq [RItem.star (neC '"') true false, RItem.lit "\"".data,
      RItem.star (neC '>') true false, RItem.lit ">".data,
      RItem.star anyC false false, RItem.lit "</div>".data]
      ('"' :: '>'::("<div>y".data ++ ("</div>".data ++ (keep.data ++ "</div>".data)))) =
      some (keep.data ++ "</div>".data, []) := by
    rw [matchSeq_gstar_stop _ _ _ _ (by simp [neC]), h3]
    rfl
  have h2 : matchSeq [RItem.lit "related".data, RItem.star (neC '"') true false,
      RItem.lit "\"".data, RItem.star (neC '>') true false, RItem.lit ">".data,
      RItem.star anyC false false, RItem.lit "</div>".data]
      ("related".data ++ ('"' :: '>'::("<div>y".data ++
        ("</div>".data ++ (keep.data ++ "</div>".data))))) =
      some (keep.data ++ "</div>".data, []) := by
    rw [matchSeq_lit_step "related".data _ _]
    exact h2b
  have h1 : matchSeq [RItem.star (neC '"') true false, RItem.lit "related".data,
      RItem.star (neC '"') true false, RItem.lit "\"".data,
      RItem.star (neC '>') true false, RItem.lit ">".data,
      RItem.star anyC false false, RItem.lit "</div>".data]
      ("related".data ++ ('"' :: '>'::("<div>y".data ++
        ("</div>".data ++ (keep.data ++ "</div>".data))))) =
      some (keep.data ++ "</div>".data, []) := by
    have := matchSeq_gstar_eval (neC '"') false
      (RItem.lit "related".data :: RItem.star (neC '"') true false ::
        RItem.lit "\"".data :: RItem.star (neC '>') true false ::
        RItem.lit ">".data :: RItem.star anyC false false ::
        RItem.lit "</div>".data :: [])
      "related".data
      ('"' :: '>'::("<div>y".data ++ ("</div>".data ++ (keep.data ++ "</div>".data))))
      0 (keep.data ++ "</div>".data) [] (by decide) (headStop_neC '"' _) (by omega)
      (by simpa using h2)
      (fun k hk1 hk2 => by
        have hlen7 : ("related".data).length = 7 := rfl
        have hk7 : k ≤ 7 := by omega
        interval_cases k <;> exact matchSeq_lit_of_none _ _ _ rfl)
    simpa using this
  have hc1 : matchSeq [RItem.lit "class=\"".data, RItem.star (neC '"') true false,
      RItem.lit "related".data, RItem.star (neC '"') true false,
      RItem.lit "\"".data, RItem.star (neC '>') true false, RItem.lit ">".data,
      RItem.star anyC false false, RItem.lit "</div>".data]
      ("class=\"".data ++ ("related".data ++ ('"' :: '>'::("<div>y".data ++
        ("</div>".data ++ (keep.data ++ "</div>".data)))))) =
      some (keep.data ++ "</div>".data, []) := by
    rw [matchSeq_lit_step "class=\"".data _ _]
    exact h1
  have h0 : matchSeq (RItem.star (neC '>') true false ::
      RItem.lit "class=\"".data :: RItem.star (neC '"') true false ::
      RItem.lit "related".data :: RItem.star (neC '"') true false ::
      RItem.lit "\"".data :: RItem.star (neC '>') true false ::
      RItem.lit ">".data :: RItem.star anyC false false ::
      RItem.lit "</div>".data :: [])
      (" class=\"related\"".data ++ ('>'::("<div>y".data ++
        ("</div>".data ++ (keep.data ++ "</div>".data))))) =
      some (keep.data ++ "</div>".data, []) := by
    have := matchSeq_gstar_eval (neC '>') false
      (RItem.lit "class=\"".data :: RItem.star (neC '"') true false ::
        RItem.lit "related".data :: RItem.star (neC '"') true false ::
        RItem.lit "\"".data :: RItem.star (neC '>') true false ::
        RItem.lit ">".data :: RItem.star anyC false false ::
        RItem.lit "</div>".data :: [])
      " class=\"related\"".data
      ('>'::("<div>y".data ++ ("</div>".data ++ (keep.data ++ "</div>".data))))
      1 (keep.data ++ "</div>".data) [] (by decide) (headStop_neC '>' _) (by decide)
      (by simpa using hc1)
      (fun k hk1 hk2 => by
        have hlen16 : (" class=\"related\"".data).length = 16 := rfl
        have hk16 : k ≤ 16 := by omega
        interval_cases k <;> exact matchSeq_lit_of_none _ _ _ rfl)
    simpa using this
  have hmatch : matchSeq divRelatedPat
      ('<'::("div class=\"related\">".data ++ ('<'::("div>y".data ++
        ('<'::("/div>".data ++ (keep.data ++ ('<' :: "/div>".data)))))))) =
      some (keep.data ++ ('<' :: "/div>".data), []) := by
    show matchSeq (RItem.lit "<div".data :: RItem.star (neC '>') true false ::
      RItem.lit "class=\"".data :: RItem.star (neC '"') true false ::
      RItem.lit "related".data :: RItem.star (neC '"') true false ::
      RItem.lit "\"".data :: RItem.star (neC '>') true false ::
      RItem.lit ">".data :: RItem.star anyC false false ::
      RItem.lit "</div>".data :: [])
      ("<div".data ++ (" class=\"related\"".data ++ ('>'::("<div>y".data ++
        ("</div>".data ++ (keep.data ++ "</div>".data)))))) = _
    rw [matchSeq_lit_step "<div".data _ _]
    exact h0
  have hrem : (keep.data ++ ('<' :: "/div>".data)).length ≤
      ("div class=\"related\">".data ++ ('<'::("div>y".data ++
        ('<'::("/div>".data ++ (keep.data ++ ('<' :: "/div>".data))))))).length := by
    simp
  -- now run the pipeline
  have hstrip : stripMarkup ('<'::("div class=\"related\">".data ++
      ('<'::("div>y".data ++ ('<'::("/div>".data ++
        (keep.data ++ ('<' :: "/div>".data)))))))) = keep.data := by
    unfold stripMarkup
    rw [reSub_noop_occursB2 scriptPat _ _ rfl _ _
      (occursB_div_input 's' "cript".data keep.data hlt rfl rfl rfl (by decide))]
    rw [reSub_noop_occursB2 stylePat _ _ rfl _ _
      (occursB_div_input 's' "tyle".data keep.data hlt rfl rfl rfl (by decide))]
    rw [reSub_noop_occursB2 navPat _ _ rfl _ _
      (occursB_div_input 'n' "av".data keep.data hlt rfl rfl rfl (by decide))]
    rw [reSub_noop_occursB2 footerPat _ _ rfl _ _
      (occursB_div_input 'f' "ooter".data keep.data hlt rfl rfl rfl (by decide))]
    rw [reSub_cons_match _ _ _ _ _ _ hmatch (by simp)]
    rw [show dropTmpl ([] : List (List Char)) = [] from rfl, List.nil_append]
    rw [reSub_skip2 divRelatedPat '<' _ _ rfl _ keep.data _ hlt]
    rw [show reSub divRelatedPat dropTmpl ('<' :: "/div>".data) = '<' :: "/div>".data
      from by decide]
    rw [reSub_skip2 divSidebarPat '<' _ _ rfl _ keep.data _ hlt]
    rw [show reSub divSidebarPat dropTmpl ('<' :: "/div>".data) = '<' :: "/div>".data
      from by decide]
    rw [reSub_skip2 (hPat '1') '<' _ _ rfl _ keep.data _ hlt]
    rw [show reSub (hPat '1') (hdrTmpl 1) ('<' :: "/div>".data) = '<' :: "/div>".data
      from by decide]
    rw [reSub_skip2 (hPat '2') '<' _ _ rfl _ keep.data _ hlt]
    rw [show reSub (hPat '2') (hdrTmpl 2) ('<' :: "/div>".data) = '<' :: "/div>".data
      from by decide]
    rw [reSub_skip2 (hPat '3') '<' _ _ rfl _ keep.data _ hlt]
    rw [show reSub (hPat '3') (hdrTmpl 3) ('<' :: "/div>".data) = '<' :: "/div>".data
      from by decide]
    rw [reSub_skip2 (hPat '4') '<' _ _ rfl _ keep.data _ hlt]
    rw [show reSub (hPat '4') (hdrTmpl 4) ('<' :: "/div>".data) = '<' :: "/div>".data
      from by decide]
    rw [reSub_skip2 (hPat '5') '<' _ _ rfl _ keep.data _ hlt]
    rw [show reSub (hPat '5') (hdrTmpl 5) ('<' :: "/div>".data) = '<' :: "/div>".data
      from by decide]
    rw [reSub_skip2 (hPat '6') '<' _ _ rfl _ keep.data _ hlt]
    rw [show reSub (hPat '6') (hdrTmpl 6) ('<' :: "/div>".data) = '<' :: "/div>".data
      from by decide]
    rw [reSub_skip2 pPat '<' _ _ rfl _ keep.data _ hlt]
    rw [show reSub pPat pTmpl ('<' :: "/div>".data) = '<' :: "/div>".data from by decide]
    rw [reSub_skip2 aPat '<' _ _ rfl _ keep.data _ hlt]
    rw [show reSub aPat aTmpl ('<' :: "/div>".data) = '<' :: "/div>".data from by decide]
    rw [reSub_skip2 strongPat '<' _ _ rfl _ keep.data _ hlt]
    rw [show reSub strongPat strongTmpl ('<' :: "/div>".data) = '<' :: "/div>".data
      from by decide]
    rw [reSub_skip2 bPat '<' _ _ rfl _ keep.data _ hlt]
    rw [show reSub bPat strongTmpl ('<' :: "/div>".data) = '<' :: "/div>".data
      from by decide]
    rw [reSub_skip2 emPat '<' _ _ rfl _ keep.data _ hlt]
    rw [show reSub emPat emTmpl ('<' :: "/div>".data) = '<' :: "/div>".data from by decide]
    rw [reSub_skip2 iPat '<' _ _ rfl _ keep.data _ hlt]
    rw [show reSub iPat emTmpl ('<' :: "/div>".data) = '<' :: "/div>".data from by decide]
    rw [reSub_skip2 liPat '<' _ _ rfl _ keep.data _ hlt]
    rw [show reSub liPat liTmpl ('<' :: "/div>".data) = '<' :: "/div>".data from by decide]
    rw [reSub_skip2 preCodePat '<' _ _ rfl _ keep.data _ hlt]
    rw [show reSub preCodePat preCodeTmpl ('<' :: "/div>".data) = '<' :: "/div>".data
      from by decide]
    rw [reSub_skip2 codePat '<' _ _ rfl _ keep.data _ hlt]
    rw [show reSub codePat codeTmpl ('<' :: "/div>".data) = '<' :: "/div>".data
      from by decide]
    rw [reSub_skip2 tagPat '<' _ _ rfl _ keep.data _ hlt]
    rw [show reSub tagPat dropTmpl ('<' :: "/div>".data) = [] from by decide]
    exact List.append_nil _
  have hdata : (convert ("<div class=\"related\"><div>y</div>" ++ keep ++ "</div>")).data
      = keep.data := by
    rw [convert_data]
    simp only [preWhitespace]
    rw [hS, hstrip, pyUnescape_noamp _ hamp,
      reSub_noop_not_mem2 collapsePat '\n' _ _ rfl _ _ hnl,
      reSub_pilcrow_noop _ hA hP]
    exact pyStrip_eq_self _ hhead hlast
  exact string_eq_of_data _ _ (by rw [hdata])

/-- Witness for claim C8 at a concrete surviving remainder. -/
theorem convert_div_nearest_close_witness :
    ("keep".data.all plainChar = true ∧ headStop pyWs "keep".data ∧
      headStop pyWs "keep".data.reverse) ∧
    convert "<div class=\"related\"><div>y</div>keep</div>" = "keep" :=
  ⟨⟨by decide, by show pyWs 'k' = false; decide, by show pyWs 'p' = false; decide⟩,
    convert_div_nearest_close "keep" (by decide)
      (by show pyWs 'k' = false; decide) (by show pyWs 'p' = false; decide)⟩

/-! ### Claim C6: heading rules -/

theorem occursB_hdr_input (a2 : Char) (l : List Char) (d : Char) (text : List Char)
    (hlt : '<' ∉ text) (hd : ¬('<' = d))
    (hm1 : (matchLit ('<' :: a2 :: l)
      ('<' :: 'h'::d :: '>'::(text ++ ('<' :: '/' :: 'h'::d :: '>'::[])))).isSome = false)
    (hm2 : (matchLit ('<' :: a2 :: l) ('<' :: '/' :: 'h'::d :: '>'::[])).isSome = false) :
    occursB ('<' :: a2 :: l)
      ('<' :: 'h'::d :: '>'::(text ++ ('<' :: '/' :: 'h'::d :: '>'::[]))) = false := by
  rw [occursB_cons_eq, hm1, Bool.false_or, occursB_cons_eq, occursB_cons_eq,
    occursB_cons_eq, occursB_append_plain '<' (a2 :: l) text _ hlt,
    occursB_cons_eq, hm2, Bool.false_or, occursB_cons_eq, occursB_cons_eq,
    occursB_cons_eq, occursB_cons_eq, occursB_nil]
  simp [matchLit, hd]

theorem matchSeq_hPat_match (d : Char) (text : List Char) (hlt : '<' ∉ text) :
    matchSeq (hPat d) ('<' :: 'h'::d :: '>'::(text ++ ('<' :: '/' :: 'h'::d :: '>'::[]))) =
      some ([], [text]) := by
  have h2 : matchSeq [RItem.star anyC false true, RItem.lit ('<' :: '/' :: 'h'::d :: '>'::[])]
      (text ++ (('<' :: '/' :: 'h'::d :: '>'::[]) ++ [])) = some ([], [text]) := by
    have h3 := matchSeq_lazy_close true '<' ('/' :: 'h'::d :: '>'::[]) text [] hlt
    simpa using h3
  have h1 : matchSeq [RItem.lit ['>'], RItem.star anyC false true,
      RItem.lit ('<' :: '/' :: 'h'::d :: '>'::[])]
      (['>'] ++ (text ++ (('<' :: '/' :: 'h'::d :: '>'::[]) ++ []))) = some ([], [text]) := by
    rw [matchSeq_lit_step ['>'] _ _]
    exact h2
  have h0 : matchSeq (RItem.star (neC '>') true false :: RItem.lit ['>'] ::
      RItem.star anyC false true :: RItem.lit ('<' :: '/' :: 'h'::d :: '>'::[]) :: [])
      ('>'::(text ++ ('<' :: '/' :: 'h'::d :: '>'::[]))) = some ([], [text]) := by
    rw [matchSeq_gstar_stop _ _ _ _ (by simp [neC])]
    rw [show ('>'::(text ++ ('<' :: '/' :: 'h'::d :: '>'::[]))) =
      ['>'] ++ (text ++ (('<' :: '/' :: 'h'::d :: '>'::[]) ++ [])) from by simp]
    rw [h1]
    rfl
  show matchSeq (RItem.lit ['<', 'h', d] :: RItem.star (neC '>') true false ::
      RItem.lit ['>'] :: RItem.star anyC false true ::
      RItem.lit ('<' :: '/' :: 'h'::d :: '>'::[]) :: [])
    (['<', 'h', d] ++ ('>'::(text ++ ('<' :: '/' :: 'h'::d :: '>'::[])))) = _
  rw [matchSeq_lit_step ['<', 'h', d] _ _]
  exact h0

theorem hdr_out_not_mem (n : Nat) (text : List Char) (c : Char)
    (hc1 : c ≠ '#') (hc2 : c ≠ ' ') (hc3 : c ∉ text) :
    c ∉ List.replicate n '#' ++ ' ' :: text := by
  intro hx
  rcases List.mem_append.1 hx with h2 | h2
  · exact hc1 (List.eq_of_mem_replicate h2)
  · rcases List.mem_cons.1 h2 with h3 | h3
    · exact hc2 h3
    · exact hc3 h3

theorem hdr_out_reverse_headStop (n : Nat) (text : List Char) (hne : text ≠ [])
    (hlast : headStop pyWs text.reverse) :
    headStop pyWs (List.replicate n '#' ++ ' ' :: text).reverse := by
  rw [List.reverse_append, List.reverse_cons, List.append_assoc]
  exact headStop_append_left pyWs text.reverse _ (by simpa using hne) hlast

theorem convert_heading_core (n : Nat) (d : Char) (text : List Char)
    (hd : ¬('<' = d)) (hplainL : text.all plainChar = true) (hne : text ≠ [])
    (hlast : headStop pyWs text.reverse) (hn1 : 1 ≤ n)
    (hchain : reSub (hPat '6') (hdrTmpl 6) (reSub (hPat '5') (hdrTmpl 5)
      (reSub (hPat '4') (hdrTmpl 4) (reSub (hPat '3') (hdrTmpl 3)
        (reSub (hPat '2') (hdrTmpl 2) (reSub (hPat '1') (hdrTmpl 1)
          ('<' :: 'h'::d :: '>'::(text ++ ('<' :: '/' :: 'h'::d :: '>'::[])))))))) =
      List.replicate n '#' ++ ' ' :: text) :
    pyStrip (reSub pilcrowPat dropTmpl (reSub collapsePat collapseTmpl
      (preWhitespace ('<' :: 'h'::d :: '>'::(text ++ ('<' :: '/' :: 'h'::d :: '>'::[])))))) =
      List.replicate n '#' ++ ' ' :: text := by
  obtain ⟨hlt, hamp, hA, hP, hnl⟩ := plain_facts text hplainL
  have hOlt : '<' ∉ List.replicate n '#' ++ ' ' :: text :=
    hdr_out_not_mem n text '<' (by decide) (by decide) hlt
  have hOamp : '&' ∉ List.replicate n '#' ++ ' ' :: text :=
    hdr_out_not_mem n text '&' (by decide) (by decide) hamp
  have hOA : 'Â' ∉ List.replicate n '#' ++ ' ' :: text :=
    hdr_out_not_mem n text 'Â' (by decide) (by decide) hA
  have hOP : '¶' ∉ List.replicate n '#' ++ ' ' :: text :=
    hdr_out_not_mem n text '¶' (by decide) (by decide) hP
  have hOnl : '\n' ∉ List.replicate n '#' ++ ' ' :: text :=
    hdr_out_not_mem n text '\n' (by decide) (by decide) hnl
  have hstrip : stripMarkup ('<' :: 'h'::d :: '>'::(text ++ ('<' :: '/' :: 'h'::d :: '>'::[]))) =
      List.replicate n '#' ++ ' ' :: text := by
    unfold stripMarkup
    rw [reSub_noop_occursB2 scriptPat _ _ rfl _ _
      (occursB_hdr_input 's' "cript".data d text hlt hd rfl rfl)]
    rw [reSub_noop_occursB2 stylePat _ _ rfl _ _
      (occursB_hdr_input 's' "tyle".data d text hlt hd rfl rfl)]
    rw [reSub_noop_occursB2 navPat _ _ rfl _ _
      (occursB_hdr_input 'n' "av".data d text hlt hd rfl rfl)]
    rw [reSub_noop_occursB2 footerPat _ _ rfl _ _
      (occursB_hdr_input 'f' "ooter".data d text hlt hd rfl rfl)]
    rw [reSub_noop_occursB2 divRelatedPat _ _ rfl _ _
      (occursB_hdr_input 'd' "iv".data d text hlt hd rfl rfl)]
    rw [reSub_noop_occursB2 divSidebarPat _ _ rfl _ _
      (occursB_hdr_input 'd' "iv".data d text hlt hd rfl rfl)]
    rw [hchain]
    rw [reSub_noop_not_mem2 pPat '<' _ _ rfl _ _ hOlt]
    rw [reSub_noop_not_mem2 aPat '<' _ _ rfl _ _ hOlt]
    rw [reSub_noop_not_mem2 strongPat '<' _ _ rfl _ _ hOlt]
    rw [reSub_noop_not_mem2 bPat '<' _ _ rfl _ _ hOlt]
    rw [reSub_noop_not_mem2 emPat '<' _ _ rfl _ _ hOlt]
    rw [reSub_noop_not_mem2 iPat '<' _ _ rfl _ _ hOlt]
    rw [reSub_noop_not_mem2 liPat '<' _ _ rfl _ _ hOlt]
    rw [reSub_noop_not_mem2 preCodePat '<' _ _ rfl _ _ hOlt]
    rw [reSub_noop_not_mem2 codePat '<' _ _ rfl _ _ hOlt]
    rw [reSub_noop_not_mem2 tagPat '<' _ _ rfl _ _ hOlt]
  have hOhead : headStop pyWs (List.replicate n '#' ++ ' ' :: text) := by
    obtain ⟨m, rfl⟩ : ∃ m, n = m + 1 := ⟨n - 1, by omega⟩
    show pyWs '#' = false
    decide
  simp only [preWhitespace]
  rw [hstrip, pyUnescape_noamp _ hOamp,
    reSub_noop_not_mem2 collapsePat '\n' _ _ rfl _ _ hOnl,
    reSub_pilcrow_noop _ hOA hOP]
  exact pyStrip_eq_self _ hOhead (hdr_out_reverse_headStop n text hne hlast)

/-- Claim C6: for every N in 1..6 and every well-formed single-level heading
input with plain inner text, convert yields a line starting with N hash
characters, one space, then the inner text (captured non-greedily). -/
theorem convert_heading (n : Nat) (hn1 : 1 ≤ n) (hn6 : n ≤ 6) (text : String)
    (hplain : text.data.all plainChar = true) (hne : text.data ≠ [])
    (hlast : headStop pyWs text.data.reverse) :
    List.IsPrefix (List.replicate n '#' ++ ' ' :: text.data)
      (convert ("<h" ++ toString n ++ ">" ++ text ++
        "</h" ++ toString n ++ ">")).data := by
  obtain ⟨hlt, -, -, -, -⟩ := plain_facts text.data hplain
  interval_cases n
  · have hS : ("<h" ++ toString 1 ++ ">" ++ text ++ "</h" ++ toString 1 ++ ">").data =
        '<' :: 'h' :: '1' :: '>'::(text.data ++ ('<' :: '/' :: 'h' :: '1' :: '>'::[])) := by
      have ht : (toString 1).data = ['1'] := rfl
      simp [String.data_append, ht]
    have hOlt : '<' ∉ List.replicate 1 '#' ++ ' ' :: text.data :=
      hdr_out_not_mem 1 text.data '<' (by decide) (by decide) hlt
    have hchain : reSub (hPat '6') (hdrTmpl 6) (reSub (hPat '5') (hdrTmpl 5)
        (reSub (hPat '4') (hdrTmpl 4) (reSub (hPat '3') (hdrTmpl 3)
          (reSub (hPat '2') (hdrTmpl 2) (reSub (hPat '1') (hdrTmpl 1)
            ('<' :: 'h' :: '1' :: '>'::(text.data ++ ('<' :: '/' :: 'h' :: '1' :: '>'::[])))))))) =
        List.replicate 1 '#' ++ ' ' :: text.data := by
      rw [reSub_cons_match _ _ _ _ _ _ (matchSeq_hPat_match '1' text.data hlt) (by simp)]
      rw [reSub_nil, List.append_nil]
      rw [show hdrTmpl 1 [text.data] = List.replicate 1 '#' ++ ' ' :: text.data from rfl]
      rw [reSub_noop_not_mem2 (hPat '2') '<' _ _ rfl _ _ hOlt]
      rw [reSub_noop_not_mem2 (hPat '3') '<' _ _ rfl _ _ hOlt]
      rw [reSub_noop_not_mem2 (hPat '4') '<' _ _ rfl _ _ hOlt]
      rw [reSub_noop_not_mem2 (hPat '5') '<' _ _ rfl _ _ hOlt]
      rw [reSub_noop_not_mem2 (hPat '6') '<' _ _ rfl _ _ hOlt]
    rw [convert_data, hS,
      convert_heading_core 1 '1' text.data (by decide) hplain hne hlast (by omega) hchain]
  · have hS : ("<h" ++ toString 2 ++ ">" ++ text ++ "</h" ++ toString 2 ++ ">").data =
        '<' :: 'h' :: '2' :: '>'::(text.data ++ ('<' :: '/' :: 'h' :: '2' :: '>'::[])) := by
      have ht : (toString 2).data = ['2'] := rfl
      simp [String.data_append, ht]
    have hOlt : '<' ∉ List.replicate 2 '#' ++ ' ' :: text.data :=
      hdr_out_not_mem 2 text.data '<' (by decide) (by decide) hlt
    have hchain : reSub (hPat '6') (hdrTmpl 6) (reSub (hPat '5') (hdrTmpl 5)
        (reSub (hPat '4') (hdrTmpl 4) (reSub (hPat '3') (hdrTmpl 3)
          (reSub (hPat '2') (hdrTmpl 2) (reSub (hPat '1') (hdrTmpl 1)
            ('<' :: 'h' :: '2' :: '>'::(text.data ++ ('<' :: '/' :: 'h' :: '2' :: '>'::[])))))))) =
        List.replicate 2 '#' ++ ' ' :: text.data := by
      rw [reSub_noop_occursB2 (hPat '1') _ _ rfl _ _
        (occursB_hdr_input 'h' ['1'] '2' text.data hlt (by decide) rfl rfl)]
      rw [reSub_cons_match _ _ _ _ _ _ (matchSeq_hPat_match '2' text.data hlt) (by simp)]
      rw [reSub_nil, List.append_nil]
      rw [show hdrTmpl 2 [text.data] = List.replicate 2 '#' ++ ' ' :: text.data from rfl]
      rw [reSub_noop_not_mem2 (hPat '3') '<' _ _ rfl _ _ hOlt]
      rw [reSub_noop_not_mem2 (hPat '4') '<' _ _ rfl _ _ hOlt]
      rw [reSub_noop_not_mem2 (hPat '5') '<' _ _ rfl _ _ hOlt]
      rw [reSub_noop_not_mem2 (hPat '6') '<' _ _ rfl _ _ hOlt]
    rw [convert_data, hS,
      convert_heading_core 2 '2' text.data (by decide) hplain hne hlast (by omega) hchain]
  · have hS : ("<h" ++ toString 3 ++ ">" ++ text ++ "</h" ++ toString 3 ++ ">").data =
        '<' :: 'h' :: '3' :: '>'::(text.data ++ ('<' :: '/' :: 'h' :: '3' :: '>'::[])) := by
      have ht : (toString 3).data = ['3'] := rfl
      simp [String.data_append, ht]
    have hOlt : '<' ∉ List.replicate 3 '#' ++ ' ' :: text.data :=
      hdr_out_not_mem 3 text.data '<' (by decide) (by decide) hlt
    have hchain : reSub (hPat '6') (hdrTmpl 6) (reSub (hPat '5') (hdrTmpl 5)
        (reSub (hPat '4') (hdrTmpl 4) (reSub (hPat '3') (hdrTmpl 3)
          (reSub (hPat '2') (hdrTmpl 2) (reSub (hPat '1') (hdrTmpl 1)
            ('<' :: 'h' :: '3' :: '>'::(text.data ++ ('<' :: '/' :: 'h' :: '3' :: '>'::[])))))))) =
        List.replicate 3 '#' ++ ' ' :: text.data := by
      rw [reSub_noop_occursB2 (hPat '1') _ _ rfl _ _
        (occursB_hdr_input 'h' ['1'] '3' text.data hlt (by decide) rfl rfl)]
      rw [reSub_noop_occursB2 (hPat '2') _ _ rfl _ _
        (occursB_hdr_input 'h' ['2'] '3' text.data hlt (by decide) rfl rfl)]
      rw [reSub_cons_match _ _ _ _ _ _ (matchSeq_hPat_match '3' text.data hlt) (by simp)]
      rw [reSub_nil, List.append_nil]
      rw [show hdrTmpl 3 [text.data] = List.replicate 3 '#' ++ ' ' :: text.data from rfl]
      rw [reSub_noop_not_mem2 (hPat '4') '<' _ _ rfl _ _ hOlt]
      rw [reSub_noop_not_mem2 (hPat '5') '<' _ _ rfl _ _ hOlt]
      rw [reSub_noop_not_mem2 (hPat '6') '<' _ _ rfl _ _ hOlt]
    rw [convert_data, hS,
      convert_heading_core 3 '3' text.data (by decide) hplain hne hlast (by omega) hchain]
  · have hS : ("<h" ++ toString 4 ++ ">" ++ text ++ "</h" ++ toString 4 ++ ">").data =
        '<' :: 'h' :: '4' :: '>'::(text.data ++ ('<' :: '/' :: 'h' :: '4' :: '>'::[])) := by
      have ht : (toString 4).data = ['4'] := rfl
      simp [String.data_append, ht]
    have hOlt : '<' ∉ List.replicate 4 '#' ++ ' ' :: text.data :=
      hdr_out_not_mem 4 text.data '<' (by decide) (by decide) hlt
    have hchain : reSub (hPat '6') (hdrTmpl 6) (reSub (hPat '5') (hdrTmpl 5)
        (reSub (hPat '4') (hdrTmpl 4) (reSub (hPat '3') (hdrTmpl 3)
          (reSub (hPat '2') (hdrTmpl 2) (reSub (hPat '1') (hdrTmpl 1)
            ('<' :: 'h' :: '4' :: '>'::(text.data ++ ('<' :: '/' :: 'h' :: '4' :: '>'::[])))))))) =
        List.replicate 4 '#' ++ ' ' :: text.data := by
      rw [reSub_noop_occursB2 (hPat '1') _ _ rfl _ _
        (occursB_hdr_input 'h' ['1'] '4' text.data hlt (by decide) rfl rfl)]
      rw [reSub_noop_occursB2 (hPat '2') _ _ rfl _ _
        (occursB_hdr_input 'h' ['2'] '4' text.data hlt (by decide) rfl rfl)]
      rw [reSub_noop_occursB2 (hPat '3') _ _ rfl _ _
        (occursB_hdr_input 'h' ['3'] '4' text.data hlt (by decide) rfl rfl)]
      rw [reSub_cons_match _ _ _ _ _ _ (matchSeq_hPat_match '4' text.data hlt) (by simp)]
      rw [reSub_nil, List.append_nil]
      rw [show hdrTmpl 4 [text.data] = List.replicate 4 '#' ++ ' ' :: text.data from rfl]
      rw [reSub_noop_not_mem2 (hPat '5') '<' _ _ rfl _ _ hOlt]
      rw [reSub_noop_not_mem2 (hPat '6') '<' _ _ rfl _ _ hOlt]
    rw [convert_data, hS,
      convert_heading_core 4 '4' text.data (by decide) hplain hne hlast (by omega) hchain]
  · have hS : ("<h" ++ toString 5 ++ ">" ++ text ++ "</h" ++ toString 5 ++ ">").data =
        '<' :: 'h' :: '5' :: '>'::(text.data ++ ('<' :: '/' :: 'h' :: '5' :: '>'::[])) := by
      have ht : (toString 5).data = ['5'] := rfl
      simp [String.data_append, ht]
    have hOlt : '<' ∉ List.replicate 5 '#' ++ ' ' :: text.data :=
      hdr_out_not_mem 5 text.data '<' (by decide) (by decide) hlt
    have hchain : reSub (hPat '6') (hdrTmpl 6) (reSub (hPat '5') (hdrTmpl 5)
        (reSub (hPat '4') (hdrTmpl 4) (reSub (hPat '3') (hdrTmpl 3)
          (reSub (hPat '2') (hdrTmpl 2) (reSub (hPat '1') (hdrTmpl 1)
            ('<' :: 'h' :: '5' :: '>'::(text.data ++ ('<' :: '/' :: 'h' :: '5' :: '>'::[])))))))) =
        List.replicate 5 '#' ++ ' ' :: text.data := by
      rw [reSub_noop_occursB2 (hPat '1') _ _ rfl _ _
        (occursB_hdr_input 'h' ['1'] '5' text.data hlt (by decide) rfl rfl)]
      rw [reSub_noop_occursB2 (hPat '2') _ _ rfl _ _
        (occursB_hdr_input 'h' ['2'] '5' text.data hlt (by decide) rfl rfl)]
      rw [reSub_noop_occursB2 (hPat '3') _ _ rfl _ _
        (occursB_hdr_input 'h' ['3'] '5' text.data hlt (by decide) rfl rfl)]
      rw [reSub_noop_occursB2 (hPat '4') _ _ rfl _ _
        (occursB_hdr_input 'h' ['4'] '5' text.data hlt (by decide) rfl rfl)]
      rw [reSub_cons_match _ _ _ _ _ _ (matchSeq_hPat_match '5' text.data hlt) (by simp)]
      rw [reSub_nil, List.append_nil]
      rw [show hdrTmpl 5 [text.data] = List.replicate 5 '#' ++ ' ' :: text.data from rfl]
      rw [reSub_noop_not_mem2 (hPat '6') '<' _ _ rfl _ _ hOlt]
    rw [convert_data, hS,
      convert_heading_core 5 '5' text.data (by decide) hplain hne hlast (by omega) hchain]
  · have hS : ("<h" ++ toString 6 ++ ">" ++ text ++ "</h" ++ toString 6 ++ ">").data =
        '<' :: 'h' :: '6' :: '>'::(text.data ++ ('<' :: '/' :: 'h' :: '6' :: '>'::[])) := by
      have ht : (toString 6).data = ['6'] := rfl
      simp [String.data_append, ht]
    have hchain : reSub (hPat '6') (hdrTmpl 6) (reSub (hPat '5') (hdrTmpl 5)
        (reSub (hPat '4') (hdrTmpl 4) (reSub (hPat '3') (hdrTmpl 3)
          (reSub (hPat '2') (hdrTmpl 2) (reSub (hPat '1') (hdrTmpl 1)
            ('<' :: 'h' :: '6' :: '>'::(text.data ++ ('<' :: '/' :: 'h' :: '6' :: '>'::[])))))))) =
        List.replicate 6 '#' ++ ' ' :: text.data := by
      rw [reSub_noop_occursB2 (hPat '1') _ _ rfl _ _
        (occursB_hdr_input 'h' ['1'] '6' text.data hlt (by decide) rfl rfl)]
      rw [reSub_noop_occursB2 (hPat '2') _ _ rfl _ _
        (occursB_hdr_input 'h' ['2'] '6' text.data hlt (by decide) rfl rfl)]
      rw [reSub_noop_occursB2 (hPat '3') _ _ rfl _ _
        (occursB_hdr_input 'h' ['3'] '6' text.data hlt (by decide) rfl rfl)]
      rw [reSub_noop_occursB2 (hPat '4') _ _ rfl _ _
        (occursB_hdr_input 'h' ['4'] '6' text.data hlt (by decide) rfl rfl)]
      rw [reSub_noop_occursB2 (hPat '5') _ _ rfl _ _
        (occursB_hdr_input 'h' ['5'] '6' text.data hlt (by decide) rfl rfl)]
      rw [reSub_cons_match _ _ _ _ _ _ (matchSeq_hPat_match '6' text.data hlt) (by simp)]
      rw [reSub_nil, List.append_nil]
      rw [show hdrTmpl 6 [text.data] = List.replicate 6 '#' ++ ' ' :: text.data from rfl]
    rw [convert_data, hS,
      convert_heading_core 6 '6' text.data (by decide) hplain hne hlast (by omega) hchain]

/-- Witness for claim C6 at the concrete level-2 heading of a plain title. -/
theorem convert_heading_witness :
    (1 ≤ 2 ∧ 2 ≤ 6 ∧ "Title".data.all plainChar = true ∧ "Title".data ≠ [] ∧
      headStop pyWs "Title".data.reverse) ∧
    List.IsPrefix (List.replicate 2 '#' ++ ' ' :: "Title".data)
      (convert ("<h" ++ toString 2 ++ ">" ++ "Title" ++
        "</h" ++ toString 2 ++ ">")).data :=
  ⟨⟨by decide, by decide, by decide, by decide, by show pyWs 'e' = false; decide⟩,
    convert_heading 2 (by decide) (by decide) "Title" (by decide) (by decide)
      (by show pyWs 'e' = false; decide)⟩

/-! ### Claim C2: link rewriting -/

theorem href_take_contra (w v : List Char) (hle : w.length < 6) (h1 : 1 ≤ w.length)
    (htake : w ++ ('"' :: v).take (6 - w.length) = 'h' :: 'r' :: 'e' :: 'f' :: '=' :: '"'::[]) :
    w = 'h' :: 'r' :: 'e' :: 'f' :: '='::[] := by
  rcases w with _ | ⟨c1, w⟩
  · simp at h1
  rcases w with _ | ⟨c2, w⟩
  · simp at htake
  rcases w with _ | ⟨c3, w⟩
  · simp at htake
  rcases w with _ | ⟨c4, w⟩
  · simp at htake
  rcases w with _ | ⟨c5, w⟩
  · simp at htake
  rcases w with _ | ⟨c6, w⟩
  · simp at htake
    obtain ⟨rfl, rfl, rfl, rfl, rfl⟩ := htake
    rfl
  · simp at hle
    omega

theorem matchLit_href_fail (url : List Char) (i : Nat) (hi : i < url.length)
    (hq : '"' ∉ url) (hend : ∀ pre, url ≠ pre ++ "href=".data) (v : List Char) :
    matchLit ('h' :: 'r' :: 'e' :: 'f' :: '=' :: '"'::[]) (url.drop i ++ '"' :: v) = none := by
  cases hm : matchLit ('h' :: 'r' :: 'e' :: 'f' :: '=' :: '"'::[]) (url.drop i ++ '"' :: v) with
  | none => rfl
  | some cs2 =>
    exfalso
    rw [matchLit_eq_some] at hm
    have htake : (url.drop i ++ '"' :: v).take 6 = 'h' :: 'r' :: 'e' :: 'f' :: '=' :: '"'::[] := by
      rw [hm]
      rfl
    by_cases h6 : 6 ≤ (url.drop i).length
    · rw [List.take_append_of_le_length h6] at htake
      have hmem : '"' ∈ (url.drop i).take 6 := by rw [htake]; decide
      exact hq (List.drop_subset i url (List.take_subset 6 (url.drop i) hmem))
    · push_neg at h6
      have hlen : 1 ≤ (url.drop i).length := by rw [List.length_drop]; omega
      rw [List.take_append_eq_append_take, List.take_of_length_le (by omega)] at htake
      have hw := href_take_contra (url.drop i) v h6 hlen htake
      exact hend (url.take i) (by
        conv_lhs => rw [← List.take_append_drop i url]
        rw [hw])

theorem not_ends_href (url : List Char) (h : url.reverse.headD ' ' ≠ '=') :
    ∀ pre, url ≠ pre ++ "href=".data := by
  intro pre hp
  apply h
  rw [hp, List.reverse_append]
  rfl

theorem occursB_a_input (a2 : Char) (l : List Char) (url text : List Char)
    (hurl : '<' ∉ url) (htext : '<' ∉ text)
    (hm1 : (matchLit ('<' :: a2 :: l) ('<' :: 'a' :: ' ' :: 'h' :: 'r' :: 'e' :: 'f' :: '=' :: '"'::
      (url ++ '"' :: '>'::(text ++ ('<' :: '/' :: 'a' :: '>'::[]))))).isSome = false)
    (hm2 : (matchLit ('<' :: a2 :: l) ('<' :: '/' :: 'a' :: '>'::[])).isSome = false) :
    occursB ('<' :: a2 :: l) ('<' :: 'a' :: ' ' :: 'h' :: 'r' :: 'e' :: 'f' :: '=' :: '"'::
      (url ++ '"' :: '>'::(text ++ ('<' :: '/' :: 'a' :: '>'::[])))) = false := by
  rw [occursB_cons_eq, hm1, Bool.false_or,
    occursB_cons_eq, occursB_cons_eq, occursB_cons_eq, occursB_cons_eq,
    occursB_cons_eq, occursB_cons_eq, occursB_cons_eq, occursB_cons_eq,
    occursB_append_plain '<' (a2 :: l) url _ hurl,
    occursB_cons_eq, occursB_cons_eq,
    occursB_append_plain '<' (a2 :: l) text _ htext,
    occursB_cons_eq, hm2, Bool.false_or,
    occursB_cons_eq, occursB_cons_eq, occursB_cons_eq, occursB_nil]
  simp [matchLit]

theorem matchSeq_aPat_match (url text : List Char)
    (hq : '"' ∉ url) (hgt : '>' ∉ url) (hlt : '<' ∉ text)
    (hend : ∀ pre, url ≠ pre ++ "href=".data) :
    matchSeq aPat ('<' :: 'a' :: ' ' :: 'h' :: 'r' :: 'e' :: 'f' :: '=' :: '"'::
      (url ++ '"' :: '>'::(text ++ ('<' :: '/' :: 'a' :: '>'::[])))) =
      some ([], [url, text]) := by
  have hA : matchSeq [RItem.star anyC false true, RItem.lit ('<' :: '/' :: 'a' :: '>'::[])]
      (text ++ (('<' :: '/' :: 'a' :: '>'::[]) ++ [])) = some ([], [text]) := by
    have h := matchSeq_lazy_close true '<' ('/' :: 'a' :: '>'::[]) text [] hlt
    simpa using h
  have hB : matchSeq [RItem.lit ['>'], RItem.star anyC false true,
      RItem.lit ('<' :: '/' :: 'a' :: '>'::[])]
      (['>'] ++ (text ++ (('<' :: '/' :: 'a' :: '>'::[]) ++ []))) = some ([], [text]) := by
    rw [matchSeq_lit_step ['>'] _ _]
    exact hA
  have hC : matchSeq (RItem.star (neC '>') true false :: RItem.lit ['>'] ::
      RItem.star anyC false true :: RItem.lit ('<' :: '/' :: 'a' :: '>'::[]) :: [])
      ('>'::(text ++ ('<' :: '/' :: 'a' :: '>'::[]))) = some ([], [text]) := by
    rw [matchSeq_gstar_stop _ _ _ _ (by simp [neC])]
    rw [show ('>'::(text ++ ('<' :: '/' :: 'a' :: '>'::[]))) =
      ['>'] ++ (text ++ (('<' :: '/' :: 'a' :: '>'::[]) ++ [])) from by simp]
    rw [hB]
    rfl
  have hD : matchSeq (RItem.lit ['"'] :: RItem.star (neC '>') true false ::
      RItem.lit ['>'] :: RItem.star anyC false true ::
      RItem.lit ('<' :: '/' :: 'a' :: '>'::[]) :: [])
      ('"' :: '>'::(text ++ ('<' :: '/' :: 'a' :: '>'::[]))) = some ([], [text]) := by
    rw [show ('"' :: '>'::(text ++ ('<' :: '/' :: 'a' :: '>'::[]))) =
      ['"'] ++ ('>'::(text ++ ('<' :: '/' :: 'a' :: '>'::[]))) from rfl]
    rw [matchSeq_lit_step ['"'] _ _]
    exact hC
  have hE : matchSeq (RItem.star (neC '"') true true :: RItem.lit ['"'] ::
      RItem.star (neC '>') true false :: RItem.lit ['>'] ::
      RItem.star anyC false true :: RItem.lit ('<' :: '/' :: 'a' :: '>'::[]) :: [])
      (url ++ '"' :: '>'::(text ++ ('<' :: '/' :: 'a' :: '>'::[]))) =
      some ([], [url, text]) := by
    have h := matchSeq_gstar_eval (neC '"') true
      (RItem.lit ['"'] :: RItem.star (neC '>') true false :: RItem.lit ['>'] ::
        RItem.star anyC false true :: RItem.lit ('<' :: '/' :: 'a' :: '>'::[]) :: [])
      url ('"' :: '>'::(text ++ ('<' :: '/' :: 'a' :: '>'::[]))) url.length [] [text]
      (List.all_eq_true.2 fun c hc => by
        have hcne : ¬c = '"' := fun h2 => hq (h2 ▸ hc)
        simp [neC, hcne])
      (by show neC '"' '"' = false; simp [neC])
      (le_refl _)
      (by rw [List.drop_length, List.nil_append]; exact hD)
      (fun k hk1 hk2 => absurd (Nat.lt_of_lt_of_le hk1 hk2) (lt_irrefl _))
    rw [List.take_length] at h
    simpa using h
  have hu : (' ' :: 'h' :: 'r' :: 'e' :: 'f' :: '=' :: '"'::(url ++ ['"'])).all (neC '>') = true :=
    List.all_eq_true.2 fun c hc => by
      simp only [List.mem_cons, List.mem_append, List.not_mem_nil, or_false] at hc
      have hcne : ¬c = '>' := by
        rcases hc with rfl | rfl | rfl | rfl | rfl | rfl | rfl | h | rfl
        · decide
        · decide
        · decide
        · decide
        · decide
        · decide
        · decide
        · exact fun h2 => hgt (h2 ▸ h)
        · decide
      simp [neC, hcne]
  have hhit : matchSeq (RItem.lit ('h' :: 'r' :: 'e' :: 'f' :: '=' :: '"'::[]) ::
      RItem.star (neC '"') true true :: RItem.lit ['"'] ::
      RItem.star (neC '>') true false :: RItem.lit ['>'] ::
      RItem.star anyC false true :: RItem.lit ('<' :: '/' :: 'a' :: '>'::[]) :: [])
      ((' ' :: 'h' :: 'r' :: 'e' :: 'f' :: '=' :: '"'::(url ++ ['"'])).drop 1 ++
        ('>'::(text ++ ('<' :: '/' :: 'a' :: '>'::[])))) = some ([], [url, text]) := by
    show matchSeq _ (('h' :: 'r' :: 'e' :: 'f' :: '=' :: '"'::[]) ++
      ((url ++ ['"']) ++ ('>'::(text ++ ('<' :: '/' :: 'a' :: '>'::[]))))) = _
    rw [matchSeq_lit_step ('h' :: 'r' :: 'e' :: 'f' :: '=' :: '"'::[]) _ _, List.append_assoc]
    exact hE
  have hfail : ∀ k, 1 < k →
      k ≤ (' ' :: 'h' :: 'r' :: 'e' :: 'f' :: '=' :: '"'::(url ++ ['"'])).length →
      matchSeq (RItem.lit ('h' :: 'r' :: 'e' :: 'f' :: '=' :: '"'::[]) ::
        RItem.star (neC '"') true true :: RItem.lit ['"'] ::
        RItem.star (neC '>') true false :: RItem.lit ['>'] ::
        RItem.star anyC false true :: RItem.lit ('<' :: '/' :: 'a' :: '>'::[]) :: [])
      ((' ' :: 'h' :: 'r' :: 'e' :: 'f' :: '=' :: '"'::(url ++ ['"'])).drop k ++
        ('>'::(text ++ ('<' :: '/' :: 'a' :: '>'::[])))) = none := by
    intro k hk1 hk2
    have hulen : (' ' :: 'h' :: 'r' :: 'e' :: 'f' :: '=' :: '"'::(url ++ ['"'])).length =
        url.length + 8 := by simp
    rw [hulen] at hk2
    by_cases hk6 : k ≤ 6
    · interval_cases k
      · exact matchSeq_lit_of_none _ _ _ rfl
      · exact matchSeq_lit_of_none _ _ _ rfl
      · exact matchSeq_lit_of_none _ _ _ rfl
      · exact matchSeq_lit_of_none _ _ _ rfl
      · exact matchSeq_lit_of_none _ _ _ rfl
    · push_neg at hk6
      obtain ⟨i, rfl⟩ : ∃ i, k = 7 + i := ⟨k - 7, by omega⟩
      have h7 : (' ' :: 'h' :: 'r' :: 'e' :: 'f' :: '=' :: '"'::(url ++ ['"'])).drop (7 + i) =
          (url ++ ['"']).drop i := by
        rw [← List.drop_drop]
        rfl
      rw [h7]
      by_cases hki : i < url.length
      · rw [List.drop_append_of_le_length (le_of_lt hki), List.append_assoc]
        exact matchSeq_lit_of_none _ _ _ (matchLit_href_fail url i hki hq hend _)
      · push_neg at hki
        by_cases hkeq : i = url.length
        · rw [hkeq, List.drop_left]
          exact matchSeq_lit_of_none _ _ _ rfl
        · have hl1 : (url ++ ['"']).length = url.length + 1 := by simp
          have hkend : i = (url ++ ['"']).length := by omega
          rw [hkend, List.drop_length]
          exact matchSeq_lit_of_none _ _ _ rfl
  have hG : matchSeq (RItem.star (neC '>') true false ::
      RItem.lit ('h' :: 'r' :: 'e' :: 'f' :: '=' :: '"'::[]) ::
      RItem.star (neC '"') true true :: RItem.lit ['"'] ::
      RItem.star (neC '>') true false :: RItem.lit ['>'] ::
      RItem.star anyC false true :: RItem.lit ('<' :: '/' :: 'a' :: '>'::[]) :: [])
      ((' ' :: 'h' :: 'r' :: 'e' :: 'f' :: '=' :: '"'::(url ++ ['"'])) ++
        ('>'::(text ++ ('<' :: '/' :: 'a' :: '>'::[])))) = some ([], [url, text]) := by
    have h := matchSeq_gstar_eval (neC '>') false
      (RItem.lit ('h' :: 'r' :: 'e' :: 'f' :: '=' :: '"'::[]) ::
        RItem.star (neC '"') true true :: RItem.lit ['"'] ::
        RItem.star (neC '>') true false :: RItem.lit ['>'] ::
        RItem.star anyC false true :: RItem.lit ('<' :: '/' :: 'a' :: '>'::[]) :: [])
      (' ' :: 'h' :: 'r' :: 'e' :: 'f' :: '=' :: '"'::(url ++ ['"']))
      ('>'::(text ++ ('<' :: '/' :: 'a' :: '>'::[]))) 1 [] [url, text]
      hu
      (by show neC '>' '>' = false; simp [neC])
      (Nat.succ_le_succ (Nat.zero_le _))
      hhit
      hfail
    simpa using h
  rw [show ('<' :: 'a' :: ' ' :: 'h' :: 'r' :: 'e' :: 'f' :: '=' :: '"'::
      (url ++ '"' :: '>'::(text ++ ('<' :: '/' :: 'a' :: '>'::[])))) =
    ('<' :: 'a'::[]) ++ ((' ' :: 'h' :: 'r' :: 'e' :: 'f' :: '=' :: '"'::(url ++ ['"'])) ++
      ('>'::(text ++ ('<' :: '/' :: 'a' :: '>'::[])))) from by simp]
  show matchSeq (RItem.lit ('<' :: 'a'::[]) :: RItem.star (neC '>') true false ::
      RItem.lit ('h' :: 'r' :: 'e' :: 'f' :: '=' :: '"'::[]) ::
      RItem.star (neC '"') true true :: RItem.lit ['"'] ::
      RItem.star (neC '>') true false :: RItem.lit ['>'] ::
      RItem.star anyC false true :: RItem.lit ('<' :: '/' :: 'a' :: '>'::[]) :: [])
    (('<' :: 'a'::[]) ++ ((' ' :: 'h' :: 'r' :: 'e' :: 'f' :: '=' :: '"'::(url ++ ['"'])) ++
      ('>'::(text ++ ('<' :: '/' :: 'a' :: '>'::[]))))) = some ([], [url, text])
  rw [matchSeq_lit_step ('<' :: 'a'::[]) _ _]
  exact hG

theorem a_out_not_mem (url text : List Char) (c : Char)
    (h1 : c ≠ '[') (h2 : c ≠ ']') (h3 : c ≠ '(') (h4 : c ≠ ')')
    (hu : c ∉ url) (ht : c ∉ text) :
    c ∉ '[' :: (text ++ ']' :: '(' :: (url ++ [')'])) := by
  intro hx
  rcases List.mem_cons.1 hx with h | h
  · exact h1 h
  rcases List.mem_append.1 h with h | h
  · exact ht h
  rcases List.mem_cons.1 h with h | h
  · exact h2 h
  rcases List.mem_cons.1 h with h | h
  · exact h3 h
  rcases List.mem_append.1 h with h | h
  · exact hu h
  rcases List.mem_cons.1 h with h | h
  · exact h4 h
  · exact absurd h (List.not_mem_nil c)

theorem headStop_reverse_concat (cls : Char → Bool) (x : List Char) (c : Char)
    (hc : cls c = false) : headStop cls (x ++ [c]).reverse := by
  rw [List.reverse_append]
  exact hc

/-- Claim C2 (amended): convert rewrites a well-formed single-href anchor
element to the Markdown link, but when the tag carries more than one href
attribute the URL captured into the output is that of the LAST href
attribute, not the first: the greedy attribute scan backtracks from the
right-hand end of the tag. -/
theorem convert_link_rewrite (url text : String)
    (hq : '"' ∉ url.data) (hgt : '>' ∉ url.data)
    (hplu : url.data.all plainChar = true) (hplt : text.data.all plainChar = true)
    (hend : ∀ pre, url.data ≠ pre ++ "href=".data) :
    convert ("<a href=\"" ++ url ++ "\">" ++ text ++ "</a>") =
        "[" ++ text ++ "](" ++ url ++ ")" ∧
      convert "<a href=\"https://a.test\" href=\"https://b.test\">L</a>" =
        "[L](https://b.test)" := by
  refine ⟨?_, rfl⟩
  obtain ⟨hltu, hampu, hAu, hPu, hnlu⟩ := plain_facts url.data hplu
  obtain ⟨hltt, hampt, hAt, hPt, hnlt⟩ := plain_facts text.data hplt
  have hOlt : '<' ∉ '[' :: (text.data ++ ']' :: '(' :: (url.data ++ [')'])) :=
    a_out_not_mem url.data text.data '<' (by decide) (by decide) (by decide)
      (by decide) hltu hltt
  have hOamp : '&' ∉ '[' :: (text.data ++ ']' :: '(' :: (url.data ++ [')'])) :=
    a_out_not_mem url.data text.data '&' (by decide) (by decide) (by decide)
      (by decide) hampu hampt
  have hOA : 'Â' ∉ '[' :: (text.data ++ ']' :: '(' :: (url.data ++ [')'])) :=
    a_out_not_mem url.data text.data 'Â' (by decide) (by decide) (by decide)
      (by decide) hAu hAt
  have hOP : '¶' ∉ '[' :: (text.data ++ ']' :: '(' :: (url.data ++ [')'])) :=
    a_out_not_mem url.data text.data '¶' (by decide) (by decide) (by decide)
      (by decide) hPu hPt
  have hOnl : '\n' ∉ '[' :: (text.data ++ ']' :: '(' :: (url.data ++ [')'])) :=
    a_out_not_mem url.data text.data '\n' (by decide) (by decide) (by decide)
      (by decide) hnlu hnlt
  have hstrip : stripMarkup ('<' :: 'a' :: ' ' :: 'h' :: 'r' :: 'e' :: 'f' :: '=' :: '"'::
      (url.data ++ '"' :: '>'::(text.data ++ ('<' :: '/' :: 'a' :: '>'::[])))) =
      '[' :: (text.data ++ ']' :: '(' :: (url.data ++ [')'])) := by
    unfold stripMarkup
    rw [reSub_noop_occursB2 scriptPat _ _ rfl _ _
      (occursB_a_input 's' "cript".data url.data text.data hltu hltt rfl rfl)]
    rw [reSub_noop_occursB2 stylePat _ _ rfl _ _
      (occursB_a_input 's' "tyle".data url.data text.data hltu hltt rfl rfl)]
    rw [reSub_noop_occursB2 navPat _ _ rfl _ _
      (occursB_a_input 'n' "av".data url.data text.data hltu hltt rfl rfl)]
    rw [reSub_noop_occursB2 footerPat _ _ rfl _ _
      (occursB_a_input 'f' "ooter".data url.data text.data hltu hltt rfl rfl)]
    rw [reSub_noop_occursB2 divRelatedPat _ _ rfl _ _
      (occursB_a_input 'd' "iv".data url.data text.data hltu hltt rfl rfl)]
    rw [reSub_noop_occursB2 divSidebarPat _ _ rfl _ _
      (occursB_a_input 'd' "iv".data url.data text.data hltu hltt rfl rfl)]
    rw [reSub_noop_occursB2 (hPat '1') _ _ rfl _ _
      (occursB_a_input 'h' ['1'] url.data text.data hltu hltt rfl rfl)]
    rw [reSub_noop_occursB2 (hPat '2') _ _ rfl _ _
      (occursB_a_input 'h' ['2'] url.data text.data hltu hltt rfl rfl)]
    rw [reSub_noop_occursB2 (hPat '3') _ _ rfl _ _
      (occursB_a_input 'h' ['3'] url.data text.data hltu hltt rfl rfl)]
    rw [reSub_noop_occursB2 (hPat '4') _ _ rfl _ _
      (occursB_a_input 'h' ['4'] url.data text.data hltu hltt rfl rfl)]
    rw [reSub_noop_occursB2 (hPat '5') _ _ rfl _ _
      (occursB_a_input 'h' ['5'] url.data text.data hltu hltt rfl rfl)]
    rw [reSub_noop_occursB2 (hPat '6') _ _ rfl _ _
      (occursB_a_input 'h' ['6'] url.data text.data hltu hltt rfl rfl)]
    rw [reSub_noop_occursB2 pPat _ _ rfl _ _
      (occursB_a_input 'p' [] url.data text.data hltu hltt rfl rfl)]
    rw [reSub_cons_match _ _ _ _ _ _
      (matchSeq_aPat_match url.data text.data hq hgt hltt hend) (by simp)]
    rw [reSub_nil, List.append_nil]
    rw [show aTmpl [url.data, text.data] =
      '[' :: (text.data ++ ']' :: '(' :: (url.data ++ [')'])) from by
        simp [aTmpl, cap1, cap2]]
    rw [reSub_noop_not_mem2 strongPat '<' _ _ rfl _ _ hOlt]
    rw [reSub_noop_not_mem2 bPat '<' _ _ rfl _ _ hOlt]
    rw [reSub_noop_not_mem2 emPat '<' _ _ rfl _ _ hOlt]
    rw [reSub_noop_not_mem2 iPat '<' _ _ rfl _ _ hOlt]
    rw [reSub_noop_not_mem2 liPat '<' _ _ rfl _ _ hOlt]
    rw [reSub_noop_not_mem2 preCodePat '<' _ _ rfl _ _ hOlt]
    rw [reSub_noop_not_mem2 codePat '<' _ _ rfl _ _ hOlt]
    rw [reSub_noop_not_mem2 tagPat '<' _ _ rfl _ _ hOlt]
  apply string_eq_of_data
  rw [convert_data]
  have hS : ("<a href=\"" ++ url ++ "\">" ++ text ++ "</a>").data =
      '<' :: 'a' :: ' ' :: 'h' :: 'r' :: 'e' :: 'f' :: '=' :: '"'::
        (url.data ++ '"' :: '>'::(text.data ++ ('<' :: '/' :: 'a' :: '>'::[]))) := by
    simp [String.data_append]
  have hO : ("[" ++ text ++ "](" ++ url ++ ")").data =
      '[' :: (text.data ++ ']' :: '(' :: (url.data ++ [')'])) := by
    simp [String.data_append]
  rw [hS, hO]
  simp only [preWhitespace]
  rw [hstrip, pyUnescape_noamp _ hOamp,
    reSub_noop_not_mem2 collapsePat '\n' _ _ rfl _ _ hOnl,
    reSub_pilcrow_noop _ hOA hOP]
  refine pyStrip_eq_self _ (by show pyWs '[' = false; decide) ?_
  rw [show ('[' :: (text.data ++ ']' :: '(' :: (url.data ++ [')']))) =
    ('[' :: (text.data ++ ']' :: '(' :: url.data)) ++ [')'] from by simp]
  exact headStop_reverse_concat pyWs _ ')' (by decide)

/-- Witness for claim C2 at the concrete single-href anchor of the claim
together with the double-href instance. -/
theorem convert_link_rewrite_witness :
    ('"' ∉ "https://x.test".data ∧ '>' ∉ "https://x.test".data ∧
      "https://x.test".data.all plainChar = true ∧ "L".data.all plainChar = true ∧
      (∀ pre, "https://x.test".data ≠ pre ++ "href=".data)) ∧
    (convert ("<a href=\"" ++ "https://x.test" ++ "\">" ++ "L" ++ "</a>") =
        "[" ++ "L" ++ "](" ++ "https://x.test" ++ ")" ∧
      convert "<a href=\"https://a.test\" href=\"https://b.test\">L</a>" =
        "[L](https://b.test)") :=
  ⟨⟨by decide, by decide, by decide, by decide,
      not_ends_href "https://x.test".data (by decide)⟩,
    convert_link_rewrite "https://x.test" "L" (by decide) (by decide) (by decide)
      (by decide) (not_ends_href "https://x.test".data (by decide))⟩

/-- Counterexample to claim C2 as written: with two href attributes the URL
captured into the output is that of the last href attribute, not the
first. -/
theorem convert_link_counterexample :
    convert "<a href=\"https://a.test\" href=\"https://b.test\">L</a>" =
        "[L](https://b.test)" ∧
      convert "<a href=\"https://a.test\" href=\"https://b.test\">L</a>" ≠
        "[L](https://a.test)" :=
  ⟨rfl, by decide⟩

/-- Witness for claim C3 at a concrete unhandled tag with plain inner
text. -/
theorem convert_unmatched_tag_fallthrough_witness :
    ("hello world".data.all plainChar = true ∧ headStop pyWs "hello world".data ∧
      headStop pyWs "hello world".data.reverse) ∧
    (convert "<span>hello world</span>" = "hello world" ∧ convert "" = "") :=
  ⟨⟨by decide, by show pyWs 'h' = false; decide, by show pyWs 'd' = false; decide⟩,
    convert_unmatched_tag_fallthrough "hello world" (by decide)
      (by show pyWs 'h' = false; decide) (by show pyWs 'd' = false; decide)⟩

end SphinxLlm
